import Mathlib

/-!
Verification development for the cohesivm experiment-orchestration core:
a shallow embedding of `cohesivm/database.py` (Metadata, Database) and
`cohesivm/experiment.py` (Experiment state machine) in Lean 4, together
with theorems settling the specification claims.

Modelling conventions:
* Python strings are Lean `String`s; Python slicing/splitting is modelled
  character-wise (`List Char`), which matches Python's code-point semantics.
* Numeric scalars are `Int` (floats play no role in any claim).
* The external cryptographic hash (`hashlib.sha256(...).hexdigest()[:16]`)
  is a parameter `hash : String → String` of the definitions that use it.
* The HDF5 file is modelled as a hierarchical store of insertion-ordered
  association lists (measurement group → settings group → dataset leaf with
  attributes and per-pixel arrays, plus the SAMPLES soft-link index).
* The wall clock behind `Database.timestamp` is external; the operational
  database model uses a tick counter rendered as a fixed-width (26 char,
  matching an ISO timestamp with microseconds) strictly increasing string.
  The spin-wait of the `timestamp` property is modelled separately over an
  abstract clock stream.
* Python exceptions (KeyError, h5py errors, StateError, ...) are modelled
  with `Option`/explicit error values.
-/

namespace Cohesivm

/-- A scalar element of a settings tuple (`Union[int, float, bool]` in the
source's `database_value_type`); floats are modelled as integers since no
claim depends on float semantics. -/
inductive DBScalar where
  | i : Int → DBScalar
  | b : Bool → DBScalar
deriving DecidableEq

/-- Python `str` of a scalar. -/
def DBScalar.pyStr : DBScalar → String
  | .i n => toString n
  | .b true => "True"
  | .b false => "False"

/-- Values storable as HDF5 attributes: the `database_value_type` union of
`database.py` (int, float, bool, str, tuple of scalars), extended with the
string-array and coordinate-array attribute forms that `initialize_dataset`
stores (channels, pixel ids, pixel positions). -/
inductive DBValue where
  | i : Int → DBValue
  | b : Bool → DBValue
  | s : String → DBValue
  | tup : List DBScalar → DBValue
  | strs : List String → DBValue
  | pairs : List (Int × Int) → DBValue
deriving DecidableEq

/-- Python `', '.join(parts)`. -/
def strJoinComma : List String → String
  | [] => ""
  | [x] => x
  | x :: y :: t => x ++ ", " ++ strJoinComma (y :: t)

/-- Comma-separated rendering of the elements of a Python tuple. -/
def pyStrElems : List DBScalar → String
  | [] => ""
  | [x] => x.pyStr
  | x :: y :: t => x.pyStr ++ ", " ++ pyStrElems (y :: t)

/-- Python `str(v)` of a stored value, as consumed by
`Metadata.parse_settings_hash` (`str(k) + str(v)`). Scalar renderings match
Python (`str(1) = "1"`, `str(True) = "True"`, strings render without
quotes); the array forms render as tuples. -/
def DBValue.pyStr : DBValue → String
  | .i n => toString n
  | .b true => "True"
  | .b false => "False"
  | .s v => v
  | .tup [] => "()"
  | .tup [x] => "(" ++ x.pyStr ++ ",)"
  | .tup l => "(" ++ pyStrElems l ++ ")"
  | .strs l => "(" ++ strJoinComma l ++ ")"
  | .pairs l => "(" ++ strJoinComma (l.map (fun p => "(" ++ toString p.1 ++ ", " ++ toString p.2 ++ ")")) ++ ")"

/-- Python `':'.join(parts)` from `Metadata.parse_settings_hash`. -/
def strJoin : List String → String
  | [] => ""
  | [x] => x
  | x :: y :: t => x ++ ":" ++ strJoin (y :: t)

/-- `Metadata.parse_settings_hash`: for each `(k, v)` in insertion order,
hash `str(k) + str(v)` with the external (truncated sha256) hash and join
the parts with `':'`. -/
def parse_settings_hash (hash : String → String) (settings : List (String × DBValue)) : String :=
  strJoin (settings.map (fun kv => hash (kv.1 ++ kv.2.pyStr)))

/-- Python single-character `str.split` on a character list: `"".split` gives
`[""]`, separators at the ends produce empty fragments. -/
def splitChar (sep : Char) : List Char → List (List Char)
  | [] => [[]]
  | c :: t =>
    if c = sep then [] :: splitChar sep t
    else
      match splitChar sep t with
      | [] => [[c]]
      | h :: r => (c :: h) :: r

/-- Python `s.split(sep)` for a single-character separator. -/
def pySplit (sep : Char) (s : String) : List String :=
  (splitChar sep s.data).map String.mk

/-- Association-list lookup (first match), modelling Python dict / HDF5 group
indexing; `none` models `KeyError`. -/
def alookup {α : Type} : List (String × α) → String → Option α
  | [], _ => none
  | (k', v) :: t, k => if k' = k then some v else alookup t k

/-- Association-list update-or-append (first match), modelling Python dict
assignment. -/
def aset {α : Type} : List (String × α) → String → α → List (String × α)
  | [], k, v => [(k, v)]
  | (k', v') :: t, k, v => if k' = k then (k, v) :: t else (k', v') :: aset t k v

/-- Association-list deletion (first match), modelling Python `del d[k]` /
`del group[name]`. -/
def aerase {α : Type} : List (String × α) → String → List (String × α)
  | [], _ => []
  | (k', v) :: t, k => if k' = k then t else (k', v) :: aerase t k

/-- Iterated deletion of a list of keys. -/
def aeraseList {α : Type} (l : List (String × α)) (ks : List String) : List (String × α) :=
  ks.foldl aerase l

/-- Python `str.replace(pat, rep)` on character lists (left-to-right,
non-overlapping, replace all occurrences) for a non-empty pattern
`p :: ps`; the fuel argument (instantiated with the length of the string,
an upper bound on the number of steps) keeps the recursion structural. -/
def replaceAux (p : Char) (ps rep : List Char) : Nat → List Char → List Char
  | _, [] => []
  | 0, l => l
  | fuel + 1, c :: t =>
    if (p :: ps).isPrefixOf (c :: t) then rep ++ replaceAux p ps rep fuel (t.drop ps.length)
    else c :: replaceAux p ps rep fuel t

/-- Python `s.replace(pat, rep)`; the empty-pattern case (never used by the
source on a nonempty prefix such as `f'{measurement}_'`) is the identity. -/
def pyReplace (pat rep s : String) : String :=
  match pat.data with
  | [] => s
  | p :: ps => String.mk (replaceAux p ps rep.data s.data.length s.data)

/-- The global `config.ini` DCMI defaults consumed by `Metadata.__init__`
(external configuration, passed explicitly). -/
structure Config where
  publisher : String
  creator : String
  rights : String
  subject : String
deriving DecidableEq

/-- The default DCMI mapping built by `Metadata.__init__`; `none` models
Python `None` for the derived fields filled at dataset initialization. -/
def dcmiDefaults (cfg : Config) : List (String × Option String) :=
  [("identifier", none), ("title", none), ("date", none),
   ("description", some "\"No description\""),
   ("publisher", some cfg.publisher), ("creator", some cfg.creator),
   ("type", some "dctype:Dataset"),
   ("rights", some cfg.rights), ("subject", some cfg.subject)]

/-- The kwargs loop of `Metadata.__init__`: a keyword argument is applied
only when its name is one of the DCMI terms already present. -/
def applyKwargs (dcmi : List (String × Option String)) (kwargs : List (String × String)) :
    List (String × Option String) :=
  kwargs.foldl
    (fun d kv => if (alookup d kv.1).isSome then aset d kv.1 (some kv.2) else d) dcmi

/-- The `Metadata` value object of `database.py` (fields of `__init__`,
with the derived `settings_hash`). -/
structure Metadata where
  measurement : String
  measurement_settings : List (String × DBValue)
  settings_hash : String
  sample_id : String
  device : String
  channels : List String
  channels_settings : List (List (String × DBValue))
  interface : String
  sample_dimensions : String
  pixel_ids : List String
  pixel_positions : List (Int × Int)
  pixel_dimensions : List String
  dcmi : List (String × Option String)
deriving DecidableEq

/-- `Metadata.__init__`: stores every argument unchanged (the constructor
performs no validation), derives `settings_hash` via `parse_settings_hash`,
builds the DCMI mapping from defaults and applies the recognized kwargs. -/
def Metadata.init (hash : String → String) (cfg : Config)
    (measurement : String) (measurement_settings : List (String × DBValue))
    (sample_id : String) (device : String) (channels : List String)
    (channels_settings : List (List (String × DBValue)))
    (interface : String) (sample_dimensions : String)
    (pixel_ids : List String) (pixel_positions : List (Int × Int))
    (pixel_dimensions : List String) (kwargs : List (String × String)) : Metadata :=
  { measurement := measurement
    measurement_settings := measurement_settings
    settings_hash := parse_settings_hash hash measurement_settings
    sample_id := sample_id
    device := device
    channels := channels
    channels_settings := channels_settings
    interface := interface
    sample_dimensions := sample_dimensions
    pixel_ids := pixel_ids
    pixel_positions := pixel_positions
    pixel_dimensions := pixel_dimensions
    dcmi := applyKwargs (dcmiDefaults cfg) kwargs }

/-- A structured result array (rows of scalars); the claims treat the data
arrays as opaque payloads. -/
abbrev DataArr := List (Int × Int)

/-- One decimal digit character. -/
def digitChar (d : Nat) : Char :=
  ['0', '1', '2', '3', '4', '5', '6', '7', '8', '9'].getD (d % 10) '9'

/-- The model of the wall-clock ISO timestamp string for tick `n`: a
fixed-width (26 characters, the length of an ISO timestamp with
microseconds) decimal rendering, strictly increasing in `n`. -/
def tsStr (n : Nat) : String :=
  String.mk ((List.range 26).map (fun i => digitChar (n / 10 ^ (25 - i))))

/-- A dataset leaf group: the Metadata attributes plus the per-pixel data
arrays, keyed by pixel id. -/
structure Dataset where
  attrs : List (String × DBValue)
  pixels : List (String × DataArr)
deriving DecidableEq

/-- A settings group under a measurement: the settings attributes written on
first sight of the settings hash, and the dataset leaves. -/
structure SettingsGroup where
  attrs : List (String × DBValue)
  leaves : List (String × Dataset)
deriving DecidableEq

/-- The HDF5 store of `Database`: the measurement hierarchy, the SAMPLES
soft-link index (sample id → timestamp → target path), and the clock tick
of the last returned timestamp. -/
structure DB where
  tick : Nat
  groups : List (String × List (String × SettingsGroup))
  samples : List (String × List (String × String))
deriving DecidableEq

/-- A database whose backing file was just created (only the empty SAMPLES
index exists). -/
def emptyDB : DB := { tick := 0, groups := [], samples := [] }

/-- Resolve a `["", measurement, settings_hash, leaf]` path to its dataset
leaf; any other shape is not a dataset path. -/
def DB.resolvePath (db : DB) (parts : List String) : Option Dataset :=
  match parts with
  | ["", mname, hname, lname] => do
    let mg ← alookup db.groups mname
    let sg ← alookup mg hname
    alookup sg.leaves lname
  | _ => none

/-- Resolve a dataset path string `/{measurement}/{settings_hash}/{leaf}`. -/
def DB.resolve (db : DB) (dataset : String) : Option Dataset :=
  db.resolvePath (pySplit '/' dataset)

/-- The in-place DCMI update performed at the start of
`Database.initialize_dataset`: `identifier`, `title` and `date` are filled
with derived values when they are `None`. The `date` is the date part of
the ISO timestamp (its leading segment in this model), decorated as in the
source. -/
def dcmiFill (m : Metadata) (dataset timestamp : String) : Metadata :=
  let d0 := m.dcmi
  let d1 := if alookup d0 "identifier" = some none
            then aset d0 "identifier" (some ("\"" ++ dataset ++ "\"")) else d0
  let d2 := if alookup d1 "title" = some none
            then aset d1 "title"
              (some ("\"Dataset for " ++ m.measurement ++ " of " ++ m.sample_id ++ "\"")) else d1
  let d3 := if alookup d2 "date" = some none
            then aset d2 "date"
              (some ("\"" ++ String.mk (timestamp.data.take 10) ++ "Z\"^^dcterms:W3CDTF")) else d2
  { m with dcmi := d3 }

/-- The non-DCMI part of the flat attribute set written on a dataset leaf
by `Database.initialize_dataset`: the plain fields, the measurement
settings prefixed with `{measurement}_`, and each channel's settings
prefixed with `{channel}_` (channels zipped with their settings). -/
def flatHead (m : Metadata) : List (String × DBValue) :=
  [("measurement", DBValue.s m.measurement)]
  ++ m.measurement_settings.map (fun kv => (m.measurement ++ "_" ++ kv.1, kv.2))
  ++ [("sample_id", DBValue.s m.sample_id), ("device", DBValue.s m.device),
      ("channels", DBValue.strs m.channels)]
  ++ ((m.channels.zip m.channels_settings).map
       (fun cs => cs.2.map (fun kv => (cs.1 ++ "_" ++ kv.1, kv.2)))).flatten
  ++ [("interface", DBValue.s m.interface),
      ("sample_dimensions", DBValue.s m.sample_dimensions),
      ("pixel_ids", DBValue.strs m.pixel_ids),
      ("pixel_positions", DBValue.pairs m.pixel_positions),
      ("pixel_dimensions", DBValue.strs m.pixel_dimensions)]

/-- The full flat attribute set written on a dataset leaf by
`Database.initialize_dataset`: the non-DCMI attributes followed by the
DCMI entries prefixed with `dcmi_` (h5py stores Python `None` as the
string `"None"`). -/
def flatAttrs (m : Metadata) : List (String × DBValue) :=
  flatHead m
  ++ m.dcmi.map (fun kv => ("dcmi_" ++ kv.1, DBValue.s (kv.2.getD "None")))

/-- `Database.initialize_dataset`: draws a fresh timestamp, builds the
dataset path `/{measurement}/{settings_hash}/{timestamp}-{sample_id}`,
fills the derived DCMI fields in the metadata (an in-place mutation in the
source, made explicit by returning the updated metadata), creates the
measurement and settings groups if missing (writing the settings
attributes only the first time the settings hash is seen), creates the new
leaf with the flat attribute set, and records the SAMPLES soft link.
`none` models the h5py error raised when the leaf or soft-link name
already exists. -/
def initialize_dataset (db : DB) (m : Metadata) : Option (String × DB × Metadata) :=
  let ts := tsStr (db.tick + 1)
  let db := { db with tick := db.tick + 1 }
  let dataset := "/" ++ m.measurement ++ "/" ++ m.settings_hash ++ "/" ++ ts ++ "-" ++ m.sample_id
  let m' := dcmiFill m dataset ts
  let mg := (alookup db.groups m.measurement).getD []
  let sg := (alookup mg m.settings_hash).getD ⟨m.measurement_settings, []⟩
  let lname := ts ++ "-" ++ m.sample_id
  if (alookup sg.leaves lname).isSome then none
  else
    let sg' : SettingsGroup := ⟨sg.attrs, sg.leaves ++ [(lname, ⟨flatAttrs m', []⟩)]⟩
    let groups' := aset db.groups m.measurement (aset mg m.settings_hash sg')
    let entries := (alookup db.samples m.sample_id).getD []
    if (alookup entries ts).isSome then none
    else some (dataset,
      { db with groups := groups',
                samples := aset db.samples m.sample_id (entries ++ [(ts, dataset)]) }, m')

/-- `Database.save_data` on an already-split dataset path: stores the array
as the child `pixel` of the leaf, creating missing groups along the way as
h5py's `create_dataset` does; fails if the pixel child already exists. -/
def DB.savePath (db : DB) (data : DataArr) (parts : List String) (pixel : String) : Option DB :=
  match parts with
  | ["", mname, hname, lname] =>
    let mg := (alookup db.groups mname).getD []
    let sg := (alookup mg hname).getD ⟨[], []⟩
    let leaf := (alookup sg.leaves lname).getD ⟨[], []⟩
    if (alookup leaf.pixels pixel).isSome then none
    else some { db with groups := aset db.groups mname (aset mg hname
      ⟨sg.attrs, aset sg.leaves lname ⟨leaf.attrs, leaf.pixels ++ [(pixel, data)]⟩⟩) }
  | _ => none

/-- `Database.save_data(data, dataset, pixel)`: creates
`{dataset}/{pixel}`. -/
def DB.save_data (db : DB) (data : DataArr) (dataset pixel : String) : Option DB :=
  db.savePath data (pySplit '/' dataset) pixel

/-- `Database.load_data(dataset, pixel_ids)`: a plain string is wrapped
into a one-element list, then each pixel's array is loaded in order; a
missing pixel raises (`none`). The result is always a list. -/
def DB.load_data (db : DB) (dataset : String) (pixel_ids : String ⊕ List String) :
    Option (List DataArr) := do
  let pids := match pixel_ids with
    | Sum.inl single => [single]
    | Sum.inr many => many
  let ds ← db.resolve dataset
  pids.mapM (fun p => alookup ds.pixels p)

/-- `Database.delete_dataset`: re-derives the timestamp length via the
`timestamp_size` property (which advances the clock; in this model every
timestamp has length 26), slices the last path component into timestamp
and sample id, deletes the SAMPLES soft link and the dataset leaf. `none`
models the `KeyError` on a missing entry. -/
def DB.delete_dataset (db : DB) (dataset : String) : Option DB :=
  let db := { db with tick := db.tick + 1 }
  let leaf := ((pySplit '/' dataset).getLastD "")
  let ts := String.mk (leaf.data.take 26)
  let sid := String.mk (leaf.data.drop 27)
  match alookup db.samples sid with
  | none => none
  | some entries =>
    if (alookup entries ts).isSome then
      let samples' := aset db.samples sid (aerase entries ts)
      match pySplit '/' dataset with
      | ["", mname, hname, lname] =>
        match alookup db.groups mname with
        | none => none
        | some mg =>
          match alookup mg hname with
          | none => none
          | some sg =>
            if (alookup sg.leaves lname).isSome then
              some { db with
                     samples := samples'
                     groups := aset db.groups mname
                       (aset mg hname ⟨sg.attrs, aerase sg.leaves lname⟩) }
            else none
      | _ => none
    else none

/-- `Database.filter_by_sample_id`: the target paths of the soft links
recorded under the sample id, in insertion order; a missing sample id
raises (`none`). -/
def DB.filter_by_sample_id (db : DB) (sample_id : String) : Option (List String) :=
  (alookup db.samples sample_id).map (fun entries => entries.map Prod.snd)

/-- `Database.filter_by_settings`: computes the criterion fragments by
splitting the settings hash of the query on `':'`, and returns the paths
of all datasets under every stored settings hash whose own `':'`-split
fragments contain every criterion fragment. A missing measurement group
raises (`none`). -/
def DB.filter_by_settings (hash : String → String) (db : DB) (measurement : String)
    (settings : List (String × DBValue)) : Option (List String) :=
  (alookup db.groups measurement).map (fun mg =>
    let criteria := pySplit ':' (parse_settings_hash hash settings)
    (mg.map (fun hsg =>
      if criteria.all (fun c => (pySplit ':' hsg.1).contains c) then
        hsg.2.leaves.map (fun leaf => "/" ++ measurement ++ "/" ++ hsg.1 ++ "/" ++ leaf.1)
      else [])).flatten)

/-- Decode a stored attribute as a Python string. -/
def DBValue.asStr : DBValue → Option String
  | .s v => some v
  | _ => none

/-- Decode a stored attribute as a tuple of strings (h5py returns string
arrays, converted to tuples by `load_metadata`). -/
def DBValue.asStrList : DBValue → Option (List String)
  | .strs l => some l
  | _ => none

/-- Decode a stored attribute as a tuple of coordinate pairs. -/
def DBValue.asPairList : DBValue → Option (List (Int × Int))
  | .pairs l => some l
  | _ => none

/-- The prefix-extraction loop of `Database.load_metadata`: for each key of
the filtered key list, read the value from the current metadata dict
(`KeyError` → `none`), insert it under the stripped key (Python
`k.replace(prefix, '')`) into the accumulator dict, and delete the key. -/
def egLoop (pre : String) : List String → List (String × DBValue) → List (String × DBValue) →
    Option (List (String × DBValue) × List (String × DBValue))
  | [], acc, md => some (acc, md)
  | k :: ks, acc, md => do
    let v ← alookup md k
    egLoop pre ks (aset acc (pyReplace pre "" k) v) (aerase md k)

/-- Extraction of all attributes whose key starts with `pre`, iterating the
original key list as the source does. -/
def extractGroup (pre : String) (keys : List String) (md : List (String × DBValue)) :
    Option (List (String × DBValue) × List (String × DBValue)) :=
  egLoop pre (keys.filter (fun k => pre.data.isPrefixOf k.data)) [] md

/-- The parameter names of `Metadata.__init__`; dict entries left over
after extraction whose key is among these bind the corresponding
parameter of `Metadata(**metadata)`, the rest are consumed as kwargs. -/
def metadataParamNames : List String :=
  ["measurement", "measurement_settings", "sample_id", "device", "channels",
   "channels_settings", "interface", "sample_dimensions", "pixel_ids",
   "pixel_positions", "pixel_dimensions"]

/-- The per-channel settings extraction loop of `load_metadata`: one
settings dict per reconstructed channel, in channel order, each extracted
from the evolving metadata dict by the `{channel}_` prefix and deleted. -/
def loadChannelsSettings (keys : List String) (channels : List String)
    (md : List (String × DBValue)) :
    Option (List (List (String × DBValue)) × List (String × DBValue)) :=
  channels.foldlM (fun acc c =>
    match extractGroup (c ++ "_") keys acc.2 with
    | none => none
    | some (cs, md') => some (acc.1 ++ [cs], md'))
    (([] : List (List (String × DBValue))), md)

/-- The remaining named parameters of `Metadata(**metadata)`: all still
present (else `TypeError`) and shaped as the constructor consumes them
(h5py string/array attributes converted to strings/tuples). -/
def loadFixed (md3 : List (String × DBValue)) :
    Option (String × String × String × String × List String × List (Int × Int) × List String) :=
  match alookup md3 "sample_id", alookup md3 "device", alookup md3 "interface",
        alookup md3 "sample_dimensions", alookup md3 "pixel_ids",
        alookup md3 "pixel_positions", alookup md3 "pixel_dimensions" with
  | some sidv, some devv, some itfv, some sdv, some pidv, some ppv, some pdv =>
    match sidv.asStr, devv.asStr, itfv.asStr, sdv.asStr, pidv.asStrList,
          ppv.asPairList, pdv.asStrList with
    | some sid, some dev, some itf, some sdim, some pids, some ppos, some pdims =>
      some (sid, dev, itf, sdim, pids, ppos, pdims)
    | _, _, _, _, _, _, _ => none
  | _, _, _, _, _, _, _ => none

/-- `Database.load_metadata`: reads the attribute dict of the dataset leaf,
extracts the measurement settings (prefix `{measurement}_`), the settings of
each channel (prefix `{channel}_`, iterating the reconstructed channels),
and the DCMI entries (prefix `dcmi_`), then rebuilds a Metadata via the
constructor. The extracted DCMI dict is passed as the keyword argument
`dcmi`, which the constructor drops (it is not a DCMI term); string-valued
stray leftovers are passed as kwargs. `none` models the exceptions raised
on missing keys or ill-shaped values. -/
def load_metadata (hash : String → String) (cfg : Config) (db : DB) (dataset : String) :
    Option Metadata :=
  match db.resolve dataset with
  | none => none
  | some ds =>
    let attrs := ds.attrs
    let keys := attrs.map Prod.fst
    match (alookup attrs "measurement").bind DBValue.asStr with
    | none => none
    | some measurement =>
      match extractGroup (measurement ++ "_") keys attrs with
      | none => none
      | some (ms, md1) =>
        match (alookup md1 "channels").bind DBValue.asStrList with
        | none => none
        | some channels =>
          match loadChannelsSettings keys channels md1 with
          | none => none
          | some (chSettings, md2) =>
            match extractGroup "dcmi_" keys md2 with
            | none => none
            | some (_dcmi, md3) =>
              match loadFixed md3 with
              | none => none
              | some (sample_id, device, itf, sdim, pids, ppos, pdims) =>
                let leftovers :=
                  md3.filter (fun kv => ¬ metadataParamNames.contains kv.1)
                let kwargs :=
                  leftovers.filterMap (fun kv => (kv.2.asStr).map (fun v => (kv.1, v)))
                some (Metadata.init hash cfg measurement ms sample_id device channels
                  chSettings itf sdim pids ppos pdims kwargs)

/-- The spin-wait of the `Database.timestamp` property over an abstract
clock stream: busy-wait until the clock reading differs from the previously
returned value, then return (and store) the new reading. The hypothesis is
the termination condition of the Python `while` loop. -/
def timestamp_spin (clock : Nat → String) (last : String) (h : ∃ i, clock i ≠ last) : String :=
  clock (Nat.find h)

/-- The `ExperimentState` enum of `experiment.py`. -/
inductive ExperimentState where
  | INITIAL
  | READY
  | RUNNING
  | FINISHED
  | ABORTED
deriving DecidableEq

/-- The errors surfaced by the Experiment methods: `StateError` (carrying
the current state, as the message does), `CompatibilityError`, and a
storage-layer exception escaping a Database call. -/
inductive ExpError where
  | stateErr : ExperimentState → ExpError
  | compatErr : ExpError
  | storageErr : ExpError
deriving DecidableEq

/-- The data of the external collaborators that `Experiment.setup` reads
when building the Metadata (measurement, device, interface); these are
injected dependencies outside the core. -/
structure Components where
  measurementName : String
  measurementSettings : List (String × DBValue)
  deviceName : String
  channelsNames : List String
  channelsSettings : List (List (String × DBValue))
  interfaceName : String
  sampleDimensions : String
  pixelIds : List String
  pixelPositions : List (Int × Int)
  pixelDimensions : List String
deriving DecidableEq

/-- The controller-visible state of an `Experiment`: the shared state
value, the shared current-pixel index (sentinel `-2` = no pixel, `-1` =
set up but not started), the dataset path populated by `setup`, the sample
id and the selected pixels. -/
structure Exp where
  comp : Components
  sampleId : String
  selectedPixels : List String
  state : ExperimentState
  currentPixelIdx : Int
  dataset : Option String
deriving DecidableEq

/-- The four public actions of the state machine. -/
inductive Action where
  | setup : Action
  | start : Action
  | abort : Action
  | preview : String → Action

/-- The transition table of spec §4.5: the states in which each action is
listed as valid. -/
def specValid : ExperimentState → Action → Bool
  | s, .setup => s == .INITIAL || s == .FINISHED || s == .ABORTED
  | s, .start => s == .READY
  | s, .abort => s == .READY || s == .RUNNING
  | s, .preview _ => s != .RUNNING

/-- The Metadata literal built inside `Experiment.setup` from the
measurement, device and interface collaborators (no DCMI kwargs). -/
def setupMetadata (hash : String → String) (cfg : Config) (e : Exp) : Metadata :=
  Metadata.init hash cfg e.comp.measurementName e.comp.measurementSettings
    e.sampleId e.comp.deviceName e.comp.channelsNames e.comp.channelsSettings
    e.comp.interfaceName e.comp.sampleDimensions e.comp.pixelIds e.comp.pixelPositions
    e.comp.pixelDimensions []

/-- `Experiment.setup`: raises `StateError` unless the state is INITIAL,
FINISHED or ABORTED; otherwise builds the Metadata from the components,
resets the current-pixel index to `-1`, initializes the dataset (a storage
failure there leaves the dataset and state unchanged, with the index
already reset, as in the source) and moves to READY. Each action returns
the possibly-mutated experiment alongside the error, mirroring that a
Python exception leaves prior mutations in place. -/
def setupAct (hash : String → String) (cfg : Config) (db : DB) (e : Exp) :
    Option ExpError × Exp × DB :=
  if e.state = ExperimentState.INITIAL ∨ e.state = ExperimentState.FINISHED ∨
      e.state = ExperimentState.ABORTED then
    let m := setupMetadata hash cfg e
    let e1 := { e with currentPixelIdx := -1 }
    match initialize_dataset db m with
    | some (ds, db', _) =>
      (none, { e1 with dataset := some ds, state := ExperimentState.READY }, db')
    | none => (some ExpError.storageErr, e1, db)
  else (some (ExpError.stateErr e.state), e, db)

/-- `Experiment.start`: raises `StateError` unless READY; otherwise moves
to RUNNING and spawns the worker process (which runs `_execute`). -/
def startAct (e : Exp) : Option ExpError × Exp :=
  if e.state = ExperimentState.READY then (none, { e with state := ExperimentState.RUNNING })
  else (some (ExpError.stateErr e.state), e)

/-- `Experiment.abort`: raises `StateError` unless READY or RUNNING. From
READY it resets the index sentinel, deletes the just-registered dataset (if
any) and returns to INITIAL; from RUNNING it moves to ABORTED and
terminates the worker process (external effect). -/
def abortAct (db : DB) (e : Exp) : Option ExpError × Exp × DB :=
  if e.state = ExperimentState.READY ∨ e.state = ExperimentState.RUNNING then
    if e.state = ExperimentState.READY then
      let e1 := { e with currentPixelIdx := -2 }
      match e.dataset with
      | some ds =>
        match db.delete_dataset ds with
        | some db' => (none, { e1 with dataset := none, state := ExperimentState.INITIAL }, db')
        | none => (some ExpError.storageErr, e1, db)
      | none => (none, { e1 with state := ExperimentState.INITIAL }, db)
    else (none, { e with state := ExperimentState.ABORTED }, db)
  else (some (ExpError.stateErr e.state), e, db)

/-- `Experiment.preview`: raises `StateError` when RUNNING, then checks the
requested pixel against the interface's pixel ids (`CompatibilityError`),
then resets the index sentinel, moves to RUNNING and spawns the preview
worker. -/
def previewAct (e : Exp) (pixel : String) : Option ExpError × Exp :=
  if e.state = ExperimentState.RUNNING then (some (ExpError.stateErr e.state), e)
  else if ¬ e.comp.pixelIds.contains pixel then (some ExpError.compatErr, e)
  else (none, { e with currentPixelIdx := -2, state := ExperimentState.RUNNING })

/-- Dispatcher over the four public actions (the worker bodies `_execute`
and `_execute_preview` are modelled separately). -/
def applyAction (hash : String → String) (cfg : Config) (db : DB) (e : Exp) :
    Action → Option ExpError × Exp × DB
  | Action.setup => setupAct hash cfg db e
  | Action.start => ((startAct e).1, (startAct e).2, db)
  | Action.abort => abortAct db e
  | Action.preview pixel => ((previewAct e pixel).1, (previewAct e pixel).2, db)

/-- Observable events of the worker loop `_execute`, in execution order:
shared-index store, pixel selection on the interface, measurement run,
database persistence. -/
inductive Event where
  | setIdx : Int → Event
  | selectPixel : String → Event
  | runMeas : String → Event
  | save : String → Event
deriving DecidableEq

/-- Python `f'{self.dataset}'` where the dataset may be `None`. -/
def pyStrOpt : Option String → String
  | some s => s
  | none => "None"

/-- The per-pixel loop of `Experiment._execute`: for each selected pixel in
list order, increment the shared current-pixel index, select the pixel on
the interface, run the measurement and save the result under the dataset
path keyed by the pixel id. Returns the final index and the event trace;
`none` models an exception escaping `save_data` (which would kill the
worker). -/
def execLoop (run : String → DataArr) (dsPath : String) :
    List String → DB → Int → Option (DB × Int × List Event)
  | [], db, idx => some (db, idx, [])
  | p :: rest, db, idx => do
    let idx' := idx + 1
    let db' ← db.save_data (run p) dsPath p
    let (db'', idx'', tr) ← execLoop run dsPath rest db' idx'
    some (db'', idx'',
      Event.setIdx idx' :: Event.selectPixel p :: Event.runMeas p :: Event.save p :: tr)

/-- `Experiment._execute`: raises `StateError` unless RUNNING; runs the
per-pixel loop, performs the final index increment and moves to
FINISHED. -/
def Exp.execute (run : String → DataArr) (db : DB) (e : Exp) :
    Option ExpError × Exp × DB × List Event :=
  if e.state = ExperimentState.RUNNING then
    match execLoop run (pyStrOpt e.dataset) e.selectedPixels db e.currentPixelIdx with
    | some (db', idx', tr) =>
      (none, { e with currentPixelIdx := idx' + 1, state := ExperimentState.FINISHED }, db',
        tr ++ [Event.setIdx (idx' + 1)])
    | none => (some ExpError.storageErr, e, db, [])
  else (some (ExpError.stateErr e.state), e, db, [])

/-- The canonical event trace of a full run whose index starts at `idx`:
for the pixel at offset `i`, the index store `idx + 1 + i` strictly
precedes that pixel's selection, measurement and persistence. -/
def canonicalTrace : Int → List String → List Event
  | _, [] => []
  | idx, p :: rest =>
    Event.setIdx (idx + 1) :: Event.selectPixel p :: Event.runMeas p :: Event.save p ::
      canonicalTrace (idx + 1) rest


/-! ### Association-list and string helper lemmas -/



/-! ### Concrete instances used by the witnesses and counterexamples -/

/-- A placeholder hash for concrete computations: the identity function. -/
def rawHash : String → String := fun s => s

/-- A concrete global configuration. -/
def demoCfg : Config := ⟨"\"pub\"", "\"cre\"", "\"rig\"", "\"sub\""⟩

/-- A concrete component setup for a two-pixel IV measurement. -/
def demoComp : Components :=
  ⟨"IV", [("a", DBValue.i 1)], "Dev", ["Ch"], [[("g", DBValue.i 2)]], "Itf",
   "Point:", ["0", "1"], [(0, 0), (1, 0)], ["Point:", "Point:"]⟩

/-- A freshly constructed experiment (state INITIAL). -/
def demoExp : Exp := ⟨demoComp, "S1", ["0", "1"], ExperimentState.INITIAL, -2, none⟩

/-- The metadata the demo experiment's `setup` builds. -/
def demoMeta : Metadata :=
  Metadata.init rawHash demoCfg "IV" [("a", DBValue.i 1)] "S1" "Dev" ["Ch"]
    [[("g", DBValue.i 2)]] "Itf" "Point:" ["0", "1"] [(0, 0), (1, 0)]
    ["Point:", "Point:"] []

/-- The store after initializing a dataset for `demoMeta` on the empty store. -/
def demoDB1 : DB :=
  match initialize_dataset emptyDB demoMeta with
  | some r => r.2.1
  | none => emptyDB

/-- The measurement group of `demoDB1`. -/
def demoMG : List (String × SettingsGroup) :=
  match alookup demoDB1.groups "IV" with
  | some mg => mg
  | none => []

/-- The full result of initializing a dataset for `demoMeta`. -/
def demoInitResult : String × DB × Metadata :=
  match initialize_dataset emptyDB demoMeta with
  | some r => r
  | none => ("", emptyDB, demoMeta)

/-- The demo experiment after `setup` (state READY, dataset registered). -/
def demoExpReady : Exp :=
  ⟨demoComp, "S1", ["0", "1"], ExperimentState.READY, -1,
   some "/IV/a1/00000000000000000000000001-S1"⟩

/-- A concrete measurement body: pixel 0 yields one array, pixel 1 another. -/
def demoRun : String → DataArr := fun p => if p = "0" then [(0, 0)] else [(1, 1)]

/-- The dataset leaf of `demoDB1` (no pixels written yet). -/
def demoLeaf0 : Dataset :=
  match demoDB1.resolve "/IV/a1/00000000000000000000000001-S1" with
  | some g => g
  | none => ⟨[], []⟩

/-- `demoDB1` after saving an array under pixel `0`. -/
def demoDB2 : DB :=
  match DB.save_data demoDB1 [(0, 0)] "/IV/a1/00000000000000000000000001-S1" "0" with
  | some d => d
  | none => demoDB1

/-- `demoDB2` after saving an array under pixel `1`. -/
def demoDB3 : DB :=
  match DB.save_data demoDB2 [(1, 1)] "/IV/a1/00000000000000000000000001-S1" "1" with
  | some d => d
  | none => demoDB2

/-- The dataset leaf of `demoDB3` (both pixels written). -/
def demoLeaf3 : Dataset :=
  match demoDB3.resolve "/IV/a1/00000000000000000000000001-S1" with
  | some g => g
  | none => ⟨[], []⟩

/-- The arrays stored in `demoDB3`, as a function of the pixel id. -/
def demoF : String → DataArr := fun q => if q = "0" then [(0, 0)] else [(1, 1)]

/-- A metadata with a custom DCMI `description` keyword argument. -/
def demoMetaD : Metadata :=
  Metadata.init rawHash demoCfg "IV" [("a", DBValue.i 1)] "S1" "Dev" ["Ch"]
    [[("g", DBValue.i 2)]] "Itf" "Point:" ["0", "1"] [(0, 0), (1, 0)]
    ["Point:", "Point:"] [("description", "\"custom\"")]

/-- The result of initializing a dataset for `demoMetaD`. -/
def demoInitD : String × DB × Metadata :=
  match initialize_dataset emptyDB demoMetaD with
  | some r => r
  | none => ("", emptyDB, demoMetaD)

/-- A two-valued clock stream: reading `"a"` at tick 0, `"b"` afterwards. -/
def myClock : Nat → String := fun i => if i = 0 then "a" else "b"

/-- The clock advances past the stored value `"a"`. -/
def myClockEx : ∃ i, myClock i ≠ "a" := ⟨1, by decide⟩


theorem sdata_append (s t : String) : (s ++ t).data = s.data ++ t.data := rfl

theorem smk_data (s : String) : String.mk s.data = s := rfl

theorem alookup_aset_self {α : Type} (l : List (String × α)) (k : String) (v : α) :
    alookup (aset l k v) k = some v := by
  induction l with
  | nil => simp [aset, alookup]
  | cons hd t ih =>
    obtain ⟨k', v'⟩ := hd
    by_cases h : k' = k <;> simp [aset, alookup, h, ih]

theorem alookup_aset_ne {α : Type} (l : List (String × α)) (k k' : String) (v : α)
    (h : k' ≠ k) : alookup (aset l k v) k' = alookup l k' := by
  induction l with
  | nil => simp [aset, alookup, Ne.symm h]
  | cons hd t ih =>
    obtain ⟨k0, v0⟩ := hd
    by_cases h0 : k0 = k
    · subst h0
      simp [aset, alookup, Ne.symm h]
    · by_cases h1 : k0 = k' <;> simp [aset, alookup, h0, h1, h, ih]

theorem aset_of_none {α : Type} (l : List (String × α)) (k : String) (v : α)
    (h : alookup l k = none) : aset l k v = l ++ [(k, v)] := by
  induction l with
  | nil => simp [aset]
  | cons hd t ih =>
    obtain ⟨k0, v0⟩ := hd
    by_cases h0 : k0 = k
    · simp [alookup, h0] at h
    · simp only [alookup, h0, if_false] at h
      simp [aset, h0, ih h]

theorem aset_keys {α : Type} (l : List (String × α)) (k : String) (v : α)
    (h : (alookup l k).isSome) : (aset l k v).map Prod.fst = l.map Prod.fst := by
  induction l with
  | nil => simp [alookup] at h
  | cons hd t ih =>
    obtain ⟨k0, v0⟩ := hd
    by_cases h0 : k0 = k
    · simp [aset, h0]
    · simp only [alookup, h0, if_false] at h
      simp [aset, h0, ih h]

theorem alookup_append_left {α : Type} (l₁ l₂ : List (String × α)) (k : String) (v : α)
    (h : alookup l₁ k = some v) : alookup (l₁ ++ l₂) k = some v := by
  induction l₁ with
  | nil => simp [alookup] at h
  | cons hd t ih =>
    obtain ⟨k0, v0⟩ := hd
    by_cases h0 : k0 = k <;> simp_all [alookup, h0]

theorem alookup_append_right {α : Type} (l₁ l₂ : List (String × α)) (k : String)
    (h : alookup l₁ k = none) : alookup (l₁ ++ l₂) k = alookup l₂ k := by
  induction l₁ with
  | nil => simp [alookup]
  | cons hd t ih =>
    obtain ⟨k0, v0⟩ := hd
    by_cases h0 : k0 = k <;> simp_all [alookup, h0]

theorem alookup_aerase_ne {α : Type} (l : List (String × α)) (k k' : String)
    (h : k' ≠ k) : alookup (aerase l k) k' = alookup l k' := by
  induction l with
  | nil => simp [aerase]
  | cons hd t ih =>
    obtain ⟨k0, v0⟩ := hd
    by_cases h0 : k0 = k
    · subst h0
      simp [aerase, alookup, Ne.symm h]
    · by_cases h1 : k0 = k' <;> simp [aerase, alookup, h0, h1, h, ih]

theorem aerase_of_none {α : Type} (l : List (String × α)) (k : String)
    (h : alookup l k = none) : aerase l k = l := by
  induction l with
  | nil => simp [aerase]
  | cons hd t ih =>
    obtain ⟨k0, v0⟩ := hd
    by_cases h0 : k0 = k
    · simp [alookup, h0] at h
    · simp only [alookup, h0, if_false] at h
      simp [aerase, h0, ih h]

theorem aerase_append_right {α : Type} (l₁ l₂ : List (String × α)) (k : String)
    (h : alookup l₁ k = none) : aerase (l₁ ++ l₂) k = l₁ ++ aerase l₂ k := by
  induction l₁ with
  | nil => simp
  | cons hd t ih =>
    obtain ⟨k0, v0⟩ := hd
    by_cases h0 : k0 = k
    · simp [alookup, h0] at h
    · simp only [alookup, h0, if_false] at h
      simp [aerase, h0, ih h]

theorem alookup_aeraseList_ne {α : Type} (ks : List String) (l : List (String × α)) (k : String)
    (h : ∀ k' ∈ ks, k' ≠ k) : alookup (aeraseList l ks) k = alookup l k := by
  induction ks generalizing l with
  | nil => simp [aeraseList]
  | cons k0 t ih =>
    have : aeraseList l (k0 :: t) = aeraseList (aerase l k0) t := rfl
    rw [this, ih _ (fun k' hk' => h k' (List.mem_cons_of_mem _ hk'))]
    exact alookup_aerase_ne _ _ _ (Ne.symm (h k0 (List.mem_cons_self _ _)))

theorem alookup_of_mem_nodup {α : Type} (l : List (String × α)) (k : String) (v : α)
    (hnd : (l.map Prod.fst).Nodup) (hmem : (k, v) ∈ l) : alookup l k = some v := by
  induction l with
  | nil => simp at hmem
  | cons hd t ih =>
    obtain ⟨k0, v0⟩ := hd
    simp only [List.map_cons, List.nodup_cons] at hnd
    rcases List.mem_cons.mp hmem with heq | hmem'
    · injection heq with h1 h2
      simp [alookup, h1.symm, h2]
    · have hk0 : k0 ≠ k := by
        intro hc
        exact hnd.1 (hc ▸ (List.mem_map_of_mem Prod.fst hmem'))
      simp [alookup, hk0, ih hnd.2 hmem']



/-! ### Path-splitting, timestamp and join lemmas -/


theorem splitChar_no_sep (sep : Char) (a : List Char) (h : sep ∉ a) :
    splitChar sep a = [a] := by
  induction a with
  | nil => rfl
  | cons c t ih =>
    have hc : ¬ c = sep := fun hc => h (hc ▸ List.mem_cons_self _ _)
    have ht : sep ∉ t := fun hm => h (List.mem_cons_of_mem _ hm)
    simp [splitChar, hc, ih ht]

theorem splitChar_append (sep : Char) (a b : List Char) (h : sep ∉ a) :
    splitChar sep (a ++ sep :: b) = a :: splitChar sep b := by
  induction a with
  | nil => simp [splitChar]
  | cons c t ih =>
    have hc : ¬ c = sep := fun hc => h (hc ▸ List.mem_cons_self _ _)
    have ht : sep ∉ t := fun hm => h (List.mem_cons_of_mem _ hm)
    simp only [List.cons_append, splitChar, hc, if_false, List.append_eq]
    rw [ih ht]

/-- Splitting a four-component dataset path on `'/'`. -/
theorem pySplit_path4 (a b c : String) (ha : '/' ∉ a.data) (hb : '/' ∉ b.data)
    (hc : '/' ∉ c.data) :
    pySplit '/' ("/" ++ a ++ "/" ++ b ++ "/" ++ c) = ["", a, b, c] := by
  have hdata : ("/" ++ a ++ "/" ++ b ++ "/" ++ c).data
      = '/' :: (a.data ++ '/' :: (b.data ++ '/' :: c.data)) := by
    simp [sdata_append]
  unfold pySplit
  rw [hdata]
  have h1 : splitChar '/' ('/' :: (a.data ++ '/' :: (b.data ++ '/' :: c.data)))
      = [] :: splitChar '/' (a.data ++ '/' :: (b.data ++ '/' :: c.data)) := by
    simp [splitChar]
  rw [h1, splitChar_append _ _ _ ha, splitChar_append _ _ _ hb, splitChar_no_sep _ _ hc]
  simp [smk_data]

theorem tsStr_length (n : Nat) : (tsStr n).data.length = 26 := by
  simp [tsStr]

theorem tsStr_mem_digit (n : Nat) (c : Char) (h : c ∈ (tsStr n).data) :
    c ∈ ['0', '1', '2', '3', '4', '5', '6', '7', '8', '9'] := by
  have h' : c ∈ (List.range 26).map (fun i => digitChar (n / 10 ^ (25 - i))) := h
  rcases List.mem_map.mp h' with ⟨i, _, hi⟩
  have hd : n / 10 ^ (25 - i) % 10 < 10 := Nat.mod_lt _ (by omega)
  rw [← hi]
  unfold digitChar
  rw [List.getD_eq_getElem _ _ (by simpa using hd)]
  exact List.getElem_mem _

theorem tsStr_no_slash (n : Nat) : '/' ∉ (tsStr n).data := by
  intro h
  have := tsStr_mem_digit n '/' h
  simp at this

theorem leaf_take (ts sid : String) (h26 : ts.data.length = 26) :
    ((ts ++ "-" ++ sid).data.take 26) = ts.data := by
  have : (ts ++ "-" ++ sid).data = ts.data ++ ('-' :: sid.data) := by simp [sdata_append]
  rw [this, List.take_left' h26]

theorem leaf_drop (ts sid : String) (h26 : ts.data.length = 26) :
    ((ts ++ "-" ++ sid).data.drop 27) = sid.data := by
  have : (ts ++ "-" ++ sid).data = ts.data ++ ('-' :: sid.data) := by simp [sdata_append]
  rw [this]
  rw [show (27 : Nat) = 26 + 1 from rfl, ← List.drop_drop, List.drop_left' h26]
  rfl



theorem sext (s t : String) (h : s.data = t.data) : s = t := by
  cases s; cases t
  exact congrArg String.mk h

theorem colon_append_inj (a : List Char) : ∀ (b r₁ r₂ : List Char), ':' ∉ a → ':' ∉ b →
    a ++ ':' :: r₁ = b ++ ':' :: r₂ → a = b ∧ r₁ = r₂ := by
  induction a with
  | nil =>
    intro b r₁ r₂ _ hb h
    cases b with
    | nil => simpa using h
    | cons d bt =>
      simp only [List.nil_append, List.cons_append, List.cons.injEq] at h
      exfalso
      apply hb
      rw [← h.1]
      exact List.mem_cons_self _ _
  | cons c t ih =>
    intro b r₁ r₂ ha hb h
    cases b with
    | nil =>
      simp only [List.nil_append, List.cons_append, List.cons.injEq] at h
      exfalso
      apply ha
      rw [h.1]
      exact List.mem_cons_self _ _
    | cons d bt =>
      simp only [List.cons_append, List.cons.injEq] at h
      have ht : ':' ∉ t := fun hm => ha (List.mem_cons_of_mem _ hm)
      have hbt : ':' ∉ bt := fun hm => hb (List.mem_cons_of_mem _ hm)
      obtain ⟨h1, h2⟩ := ih bt r₁ r₂ ht hbt h.2
      exact ⟨by rw [h.1, h1], h2⟩

theorem strJoin_inj (l₁ : List String) : ∀ (l₂ : List String),
    (∀ x ∈ l₁, x.data ≠ [] ∧ ':' ∉ x.data) →
    (∀ x ∈ l₂, x.data ≠ [] ∧ ':' ∉ x.data) →
    strJoin l₁ = strJoin l₂ → l₁ = l₂ := by
  induction l₁ with
  | nil =>
    intro l₂ _ h₂ h
    cases l₂ with
    | nil => rfl
    | cons y yt =>
      exfalso
      have hd : ([] : List Char) = (strJoin (y :: yt)).data := congrArg String.data h
      cases yt with
      | nil => exact (h₂ y (List.mem_cons_self _ _)).1 hd.symm
      | cons y' t =>
        have : (strJoin (y :: y' :: t)).data = y.data ++ ':' :: (strJoin (y' :: t)).data := by
          show (y ++ ":" ++ strJoin (y' :: t)).data = _
          simp [sdata_append]
        rw [this] at hd
        cases hy : y.data with
        | nil => exact (h₂ y (List.mem_cons_self _ _)).1 hy
        | cons c ct => rw [hy] at hd; simp at hd
  | cons x xt ih =>
    intro l₂ h₁ h₂ h
    cases l₂ with
    | nil =>
      exfalso
      have hd : (strJoin (x :: xt)).data = ([] : List Char) := congrArg String.data h
      cases xt with
      | nil => exact (h₁ x (List.mem_cons_self _ _)).1 hd
      | cons x' t =>
        have : (strJoin (x :: x' :: t)).data = x.data ++ ':' :: (strJoin (x' :: t)).data := by
          show (x ++ ":" ++ strJoin (x' :: t)).data = _
          simp [sdata_append]
        rw [this] at hd
        cases hx : x.data with
        | nil => exact (h₁ x (List.mem_cons_self _ _)).1 hx
        | cons c ct => rw [hx] at hd; simp at hd
    | cons y yt =>
      have hd : (strJoin (x :: xt)).data = (strJoin (y :: yt)).data := congrArg String.data h
      cases xt with
      | nil =>
        cases yt with
        | nil => exact congrArg (fun s => [s]) (sext x y hd)
        | cons y' t =>
          exfalso
          have hy : (strJoin (y :: y' :: t)).data = y.data ++ ':' :: (strJoin (y' :: t)).data := by
            show (y ++ ":" ++ strJoin (y' :: t)).data = _
            simp [sdata_append]
          rw [hy] at hd
          exact (h₁ x (List.mem_cons_self _ _)).2
            (hd ▸ List.mem_append_right _ (List.mem_cons_self _ _))
      | cons x' t =>
        cases yt with
        | nil =>
          exfalso
          have hx : (strJoin (x :: x' :: t)).data = x.data ++ ':' :: (strJoin (x' :: t)).data := by
            show (x ++ ":" ++ strJoin (x' :: t)).data = _
            simp [sdata_append]
          rw [hx] at hd
          exact (h₂ y (List.mem_cons_self _ _)).2
            (hd.symm ▸ List.mem_append_right _ (List.mem_cons_self _ _))
        | cons y' t' =>
          have hx : (strJoin (x :: x' :: t)).data = x.data ++ ':' :: (strJoin (x' :: t)).data := by
            show (x ++ ":" ++ strJoin (x' :: t)).data = _
            simp [sdata_append]
          have hy : (strJoin (y :: y' :: t')).data = y.data ++ ':' :: (strJoin (y' :: t')).data := by
            show (y ++ ":" ++ strJoin (y' :: t')).data = _
            simp [sdata_append]
          rw [hx, hy] at hd
          obtain ⟨hxy, htail⟩ := colon_append_inj x.data y.data _ _
            (h₁ x (List.mem_cons_self _ _)).2 (h₂ y (List.mem_cons_self _ _)).2 hd
          have hx' := ih (y' :: t') (fun z hz => h₁ z (List.mem_cons_of_mem _ hz))
            (fun z hz => h₂ z (List.mem_cons_of_mem _ hz)) (sext _ _ htail)
          rw [sext x y hxy, hx']



theorem aerase_sublist {α : Type} (l : List (String × α)) (k : String) :
    (aerase l k).Sublist l := by
  induction l with
  | nil => simp [aerase]
  | cons hd t ih =>
    obtain ⟨k0, v0⟩ := hd
    by_cases h0 : k0 = k
    · simp only [aerase, h0, if_true]
      exact List.sublist_cons_self _ _
    · simp only [aerase, h0, if_false]
      exact List.Sublist.cons₂ _ ih

theorem aerase_keys_nodup {α : Type} (l : List (String × α)) (k : String)
    (h : (l.map Prod.fst).Nodup) : ((aerase l k).map Prod.fst).Nodup :=
  List.Nodup.sublist (List.Sublist.map _ (aerase_sublist l k)) h

theorem mem_aerase {α : Type} (l : List (String × α)) (k : String) (kv : String × α)
    (hnd : (l.map Prod.fst).Nodup) (hmem : kv ∈ aerase l k) : kv ∈ l ∧ kv.1 ≠ k := by
  induction l with
  | nil => simp [aerase] at hmem
  | cons hd t ih =>
    obtain ⟨k0, v0⟩ := hd
    simp only [List.map_cons, List.nodup_cons] at hnd
    by_cases h0 : k0 = k
    · subst h0
      simp only [aerase, if_true] at hmem
      refine ⟨List.mem_cons_of_mem _ hmem, ?_⟩
      intro hc
      exact hnd.1 (hc ▸ List.mem_map_of_mem Prod.fst hmem)
    · simp only [aerase, h0, if_false] at hmem
      rcases List.mem_cons.mp hmem with heq | hmem'
      · subst heq
        exact ⟨List.mem_cons_self _ _, fun hc => h0 hc⟩
      · obtain ⟨h1, h2⟩ := ih hnd.2 hmem'
        exact ⟨List.mem_cons_of_mem _ h1, h2⟩

theorem mem_aeraseList {α : Type} (ks : List String) :
    ∀ (l : List (String × α)) (kv : String × α), (l.map Prod.fst).Nodup →
    kv ∈ aeraseList l ks → kv ∈ l ∧ kv.1 ∉ ks := by
  induction ks with
  | nil =>
    intro l kv _ hmem
    exact ⟨hmem, by simp⟩
  | cons k t ih =>
    intro l kv hnd hmem
    have hstep : aeraseList l (k :: t) = aeraseList (aerase l k) t := rfl
    rw [hstep] at hmem
    obtain ⟨h1, h2⟩ := ih (aerase l k) kv (aerase_keys_nodup l k hnd) hmem
    obtain ⟨h3, h4⟩ := mem_aerase l k kv hnd h1
    simp only [List.mem_cons, not_or]
    exact ⟨h3, h4, h2⟩

theorem egLoop_spec (pre : String) :
    ∀ (block acc md : List (String × DBValue)),
    (∀ kv ∈ block, alookup md (pre ++ kv.1) = some kv.2) →
    (∀ kv ∈ block, pyReplace pre "" (pre ++ kv.1) = kv.1) →
    ((block.map (fun kv => pre ++ kv.1)).Nodup) →
    (∀ kv ∈ block, alookup acc kv.1 = none) →
    egLoop pre (block.map (fun kv => pre ++ kv.1)) acc md
      = some (acc ++ block, aeraseList md (block.map (fun kv => pre ++ kv.1))) := by
  intro block
  induction block with
  | nil =>
    intro acc md _ _ _ _
    simp [egLoop, aeraseList]
  | cons kv rest ih =>
    intro acc md hvals hrec hnd hacc
    simp only [List.map_cons]
    unfold egLoop
    rw [hvals kv (List.mem_cons_self _ _)]
    simp only [Option.bind_eq_bind, Option.some_bind]
    rw [hrec kv (List.mem_cons_self _ _)]
    rw [aset_of_none _ _ _ (hacc kv (List.mem_cons_self _ _))]
    simp only [List.map_cons, List.nodup_cons] at hnd
    have hkne : ∀ kv' ∈ rest, kv'.1 ≠ kv.1 := by
      intro kv' h' hc
      exact hnd.1 (by
        apply List.mem_map.mpr
        exact ⟨kv', h', by rw [hc]⟩)
    have ih' := ih (acc ++ [(kv.1, kv.2)]) (aerase md (pre ++ kv.1))
      (by
        intro kv' h'
        rw [alookup_aerase_ne _ _ _ (by
          intro hc
          exact hkne kv' h' (by
            have := congrArg (fun s => s.data) hc
            simp only [sdata_append] at this
            exact sext _ _ (List.append_cancel_left this)))]
        exact hvals kv' (List.mem_cons_of_mem _ h'))
      (fun kv' h' => hrec kv' (List.mem_cons_of_mem _ h'))
      hnd.2
      (by
        intro kv' h'
        rw [alookup_append_right _ _ _ (hacc kv' (List.mem_cons_of_mem _ h'))]
        simp [alookup, Ne.symm (hkne kv' h')])
    rw [ih']
    have hkveta : (kv.1, kv.2) = kv := rfl
    rw [hkveta, List.append_cons acc kv rest]
    rfl

theorem aeraseList_append {α : Type} (l : List (String × α)) (ks1 ks2 : List String) :
    aeraseList l (ks1 ++ ks2) = aeraseList (aeraseList l ks1) ks2 := by
  simp [aeraseList, List.foldl_append]

theorem extractGroup_spec (pre : String) (keys : List String)
    (block md : List (String × DBValue))
    (hfilter : keys.filter (fun k => pre.data.isPrefixOf k.data)
      = block.map (fun kv => pre ++ kv.1))
    (hvals : ∀ kv ∈ block, alookup md (pre ++ kv.1) = some kv.2)
    (hrec : ∀ kv ∈ block, pyReplace pre "" (pre ++ kv.1) = kv.1)
    (hnd : (block.map (fun kv => pre ++ kv.1)).Nodup) :
    extractGroup pre keys md
      = some (block, aeraseList md (block.map (fun kv => pre ++ kv.1))) := by
  unfold extractGroup
  rw [hfilter]
  have h := egLoop_spec pre block [] md hvals hrec hnd (fun kv _ => rfl)
  rw [h]
  simp

theorem loadChannels_loop (keys : List String) :
    ∀ (chs : List String) (css : List (List (String × DBValue)))
      (md : List (String × DBValue)) (acc0 : List (List (String × DBValue))),
    chs.length = css.length →
    (∀ cp ∈ chs.zip css,
      keys.filter (fun k => (cp.1 ++ "_").data.isPrefixOf k.data)
        = cp.2.map (fun kv => cp.1 ++ "_" ++ kv.1)) →
    (∀ cp ∈ chs.zip css, ∀ kv ∈ cp.2,
      alookup md (cp.1 ++ "_" ++ kv.1) = some kv.2) →
    (∀ cp ∈ chs.zip css, ∀ kv ∈ cp.2,
      pyReplace (cp.1 ++ "_") "" (cp.1 ++ "_" ++ kv.1) = kv.1) →
    (((chs.zip css).map (fun cp => cp.2.map (fun kv => cp.1 ++ "_" ++ kv.1))).flatten).Nodup →
    chs.foldlM (fun acc c =>
      match extractGroup (c ++ "_") keys acc.2 with
      | none => none
      | some (cs, md') => some (acc.1 ++ [cs], md')) (acc0, md)
      = some (acc0 ++ css,
          aeraseList md (((chs.zip css).map
            (fun cp => cp.2.map (fun kv => cp.1 ++ "_" ++ kv.1))).flatten)) := by
  intro chs
  induction chs with
  | nil =>
    intro css md acc0 hlen _ _ _ _
    cases css with
    | nil => simp [aeraseList]
    | cons c t => simp at hlen
  | cons c chs' ih =>
    intro css md acc0 hlen hfilter hvals hrec hnd
    cases css with
    | nil => simp at hlen
    | cons cs css' =>
      simp only [List.zip_cons_cons, List.map_cons, List.flatten_cons] at hnd ⊢
      have hnd' := List.nodup_append.mp hnd
      have hext := extractGroup_spec (c ++ "_") keys cs md
        (hfilter (c, cs) (List.mem_cons_self _ _))
        (hvals (c, cs) (List.mem_cons_self _ _))
        (hrec (c, cs) (List.mem_cons_self _ _))
        hnd'.1
      rw [List.foldlM_cons]
      simp only [hext, Option.bind_eq_bind, Option.some_bind]
      have hvals' : ∀ cp ∈ chs'.zip css', ∀ kv ∈ cp.2,
          alookup (aeraseList md (cs.map (fun kv => c ++ "_" ++ kv.1)))
            (cp.1 ++ "_" ++ kv.1) = some kv.2 := by
        intro cp hcp kv hkv
        rw [alookup_aeraseList_ne]
        · exact hvals cp (List.mem_cons_of_mem _ hcp) kv hkv
        · intro k' hk' hc
          have hmem2 : cp.1 ++ "_" ++ kv.1 ∈
              ((chs'.zip css').map (fun cp => cp.2.map (fun kv => cp.1 ++ "_" ++ kv.1))).flatten := by
            apply List.mem_flatten.mpr
            exact ⟨cp.2.map (fun kv => cp.1 ++ "_" ++ kv.1),
              List.mem_map_of_mem _ hcp, List.mem_map_of_mem _ hkv⟩
          exact hnd'.2.2 hk' (hc ▸ hmem2)
      have ih' := ih css' (aeraseList md (cs.map (fun kv => c ++ "_" ++ kv.1)))
        (acc0 ++ [cs]) (by simpa using hlen)
        (fun cp hcp => hfilter cp (List.mem_cons_of_mem _ hcp))
        hvals'
        (fun cp hcp => hrec cp (List.mem_cons_of_mem _ hcp))
        hnd'.2.1
      rw [ih']
      rw [← aeraseList_append]
      simp

theorem condSet_keeps_some (d : List (String × Option String)) (kset k : String)
    (w : Option String) (v : String) (h : alookup d k = some (some v)) :
    alookup (if alookup d kset = some none then aset d kset w else d) k = some (some v) := by
  split
  · rename_i hcond
    by_cases hk : k = kset
    · subst hk
      rw [h] at hcond
      simp at hcond
    · rw [alookup_aset_ne _ _ _ _ hk]
      exact h
  · exact h

theorem condSet_lookup_ne (d : List (String × Option String)) (kset k : String)
    (w : Option String) (hk : k ≠ kset) :
    alookup (if alookup d kset = some none then aset d kset w else d) k = alookup d k := by
  split
  · rw [alookup_aset_ne _ _ _ _ hk]
  · rfl

theorem dcmiFill_dcmi (m : Metadata) (ds ts : String) :
    (dcmiFill m ds ts).dcmi =
      (fun d2 => if alookup d2 "date" = some none
        then aset d2 "date"
          (some ("\"" ++ String.mk (ts.data.take 10) ++ "Z\"^^dcterms:W3CDTF")) else d2)
      ((fun d1 => if alookup d1 "title" = some none
        then aset d1 "title"
          (some ("\"Dataset for " ++ m.measurement ++ " of " ++ m.sample_id ++ "\"")) else d1)
      ((fun d0 => if alookup d0 "identifier" = some none
        then aset d0 "identifier" (some ("\"" ++ ds ++ "\"")) else d0) m.dcmi)) := rfl

theorem dcmiFill_lookup_ne (m : Metadata) (ds ts : String) (k : String)
    (h1 : k ≠ "identifier") (h2 : k ≠ "title") (h3 : k ≠ "date") :
    alookup (dcmiFill m ds ts).dcmi k = alookup m.dcmi k := by
  rw [dcmiFill_dcmi]
  simp only
  rw [condSet_lookup_ne _ _ _ _ h3, condSet_lookup_ne _ _ _ _ h2,
    condSet_lookup_ne _ _ _ _ h1]

theorem dcmiFill_keeps_some (m : Metadata) (ds ts : String) (k : String) (v : String)
    (h : alookup m.dcmi k = some (some v)) :
    alookup (dcmiFill m ds ts).dcmi k = some (some v) := by
  rw [dcmiFill_dcmi]
  simp only
  exact condSet_keeps_some _ _ _ _ _ (condSet_keeps_some _ _ _ _ _
    (condSet_keeps_some _ _ _ _ _ h))

theorem initialize_dataset_metadata (db : DB) (m : Metadata) (ds : String) (db' : DB)
    (m' : Metadata) (h : initialize_dataset db m = some (ds, db', m')) :
    m' = dcmiFill m ("/" ++ m.measurement ++ "/" ++ m.settings_hash ++ "/"
      ++ tsStr (db.tick + 1) ++ "-" ++ m.sample_id) (tsStr (db.tick + 1)) ∧
    ds = "/" ++ m.measurement ++ "/" ++ m.settings_hash ++ "/"
      ++ tsStr (db.tick + 1) ++ "-" ++ m.sample_id := by
  unfold initialize_dataset at h
  simp only at h
  split at h
  · exact absurd h (by simp)
  · split at h
    · exact absurd h (by simp)
    · simp only [Option.some.injEq, Prod.mk.injEq] at h
      exact ⟨h.2.2.symm, h.1.symm⟩

/-- Claim C5 (amended): `initialize_dataset` preserves every non-DCMI field of its Metadata argument, but mutates the DCMI mapping in place: `identifier`, `title` and `date` are filled when unset, while every other entry and every already-set value is kept. -/
theorem c5_immutability_amended (db : DB) (m : Metadata) (ds : String) (db' : DB)
    (m' : Metadata) (h : initialize_dataset db m = some (ds, db', m')) :
    m'.measurement = m.measurement ∧
    m'.measurement_settings = m.measurement_settings ∧
    m'.settings_hash = m.settings_hash ∧
    m'.sample_id = m.sample_id ∧
    m'.device = m.device ∧
    m'.channels = m.channels ∧
    m'.channels_settings = m.channels_settings ∧
    m'.interface = m.interface ∧
    m'.sample_dimensions = m.sample_dimensions ∧
    m'.pixel_ids = m.pixel_ids ∧
    m'.pixel_positions = m.pixel_positions ∧
    m'.pixel_dimensions = m.pixel_dimensions ∧
    (∀ k, k ≠ "identifier" → k ≠ "title" → k ≠ "date" →
      alookup m'.dcmi k = alookup m.dcmi k) ∧
    (∀ k v, alookup m.dcmi k = some (some v) → alookup m'.dcmi k = some (some v)) := by
  obtain ⟨hm', _⟩ := initialize_dataset_metadata db m ds db' m' h
  subst hm'
  refine ⟨rfl, rfl, rfl, rfl, rfl, rfl, rfl, rfl, rfl, rfl, rfl, rfl, ?_, ?_⟩
  · intro k h1 h2 h3
    exact dcmiFill_lookup_ne _ _ _ _ h1 h2 h3
  · intro k v hv
    exact dcmiFill_keeps_some _ _ _ _ _ hv

/-- Counterexample to C5 as stated: `initialize_dataset` changes the metadata it receives; its `identifier` DCMI entry is overwritten with the dataset path. -/
theorem c5_immutability_counterexample :
    ((initialize_dataset emptyDB demoMeta).map fun r => r.2.2) ≠ some demoMeta ∧
    ((initialize_dataset emptyDB demoMeta).map fun r => alookup r.2.2.dcmi "identifier")
      = some (some (some "\"/IV/a1/00000000000000000000000001-S1\"")) ∧
    alookup demoMeta.dcmi "identifier" = some none := by
  refine ⟨by decide, by decide, by decide⟩

/-- Witness for C5 (amended) at a concrete metadata on the empty store. -/
theorem c5_witness :
    initialize_dataset emptyDB demoMeta
      = some (demoInitResult.1, demoInitResult.2.1, demoInitResult.2.2) ∧
    demoInitResult.2.2.sample_id = demoMeta.sample_id ∧
    demoInitResult.2.2.measurement = demoMeta.measurement := by
  have h := c5_immutability_amended emptyDB demoMeta demoInitResult.1 demoInitResult.2.1
    demoInitResult.2.2 (by decide)
  exact ⟨by decide, h.2.2.2.1, h.1⟩

theorem condSet_keys (d : List (String × Option String)) (k : String) (w : Option String) :
    (if alookup d k = some none then aset d k w else d).map Prod.fst = d.map Prod.fst := by
  split
  · rename_i h
    exact aset_keys _ _ _ (by rw [h]; rfl)
  · rfl

theorem dcmiFill_keys (m : Metadata) (ds ts : String) :
    (dcmiFill m ds ts).dcmi.map Prod.fst = m.dcmi.map Prod.fst := by
  rw [dcmiFill_dcmi]
  simp only
  rw [condSet_keys, condSet_keys, condSet_keys]

theorem flatHead_fill (m : Metadata) (ds ts : String) :
    flatHead (dcmiFill m ds ts) = flatHead m := rfl

theorem flatAttrs_fill (m : Metadata) (ds ts : String) :
    flatAttrs (dcmiFill m ds ts) = flatHead m
      ++ (dcmiFill m ds ts).dcmi.map
           (fun kv => ("dcmi_" ++ kv.1, DBValue.s (kv.2.getD "None"))) := by
  unfold flatAttrs
  rw [flatHead_fill]

theorem dcmi_map_key_fill (m : Metadata) (ds ts : String) :
    (dcmiFill m ds ts).dcmi.map (fun kv => "dcmi_" ++ kv.1)
      = m.dcmi.map (fun kv => "dcmi_" ++ kv.1) := by
  have h1 : (fun kv : String × Option String => "dcmi_" ++ kv.1)
      = (fun s => "dcmi_" ++ s) ∘ Prod.fst := rfl
  rw [h1, ← List.map_map, ← List.map_map, dcmiFill_keys]

theorem flatAttrs_fill_keys (m : Metadata) (ds ts : String) :
    (flatAttrs (dcmiFill m ds ts)).map Prod.fst = (flatAttrs m).map Prod.fst := by
  rw [flatAttrs_fill]
  unfold flatAttrs
  rw [List.map_append, List.map_append]
  congr 1
  simp only [List.map_map]
  have hc : (Prod.fst ∘ fun kv : String × Option String =>
      ("dcmi_" ++ kv.1, DBValue.s (kv.2.getD "None")))
      = (fun s => "dcmi_" ++ s) ∘ Prod.fst := rfl
  rw [hc, ← List.map_map, ← List.map_map, dcmiFill_keys]

theorem chan_keys_map (m : Metadata) :
    (((m.channels.zip m.channels_settings).map
      (fun cs => cs.2.map (fun kv => (cs.1 ++ "_" ++ kv.1, kv.2)))).flatten).map Prod.fst
    = ((m.channels.zip m.channels_settings).map
        (fun cp => cp.2.map (fun kv => cp.1 ++ "_" ++ kv.1))).flatten := by
  rw [List.map_flatten]
  congr 1
  rw [List.map_map]
  apply List.map_congr_left
  intro cp _
  simp only [Function.comp_apply, List.map_map]
  rfl

theorem flatAttrs_keys_decomp (m : Metadata) :
    (flatAttrs m).map Prod.fst
      = "measurement" :: (m.measurement_settings.map (fun kv => m.measurement ++ "_" ++ kv.1)
        ++ "sample_id" :: "device" :: "channels"
        :: (((m.channels.zip m.channels_settings).map
              (fun cp => cp.2.map (fun kv => cp.1 ++ "_" ++ kv.1))).flatten
          ++ "interface" :: "sample_dimensions" :: "pixel_ids" :: "pixel_positions"
          :: "pixel_dimensions" :: m.dcmi.map (fun kv => "dcmi_" ++ kv.1))) := by
  unfold flatAttrs flatHead
  simp only [List.map_append, List.map_cons, List.map_nil, List.cons_append,
    List.nil_append, List.append_assoc, List.map_map, chan_keys_map]
  rfl

/-- Claim C8: with a monotone clock whose reading at the start equals the stored previous value, the spin-wait of `Database.timestamp` returns a strictly larger string, never equal to the previous one. -/
theorem c8_timestamp_monotonic (clock : Nat → String) (last : String)
    (hmono : Monotone clock) (h0 : clock 0 = last) (hex : ∃ i, clock i ≠ last) :
    last < timestamp_spin clock last hex ∧ timestamp_spin clock last hex ≠ last := by
  have hne : clock (Nat.find hex) ≠ last := Nat.find_spec hex
  have hle : clock 0 ≤ clock (Nat.find hex) := hmono (Nat.zero_le _)
  rw [h0] at hle
  exact ⟨lt_of_le_of_ne hle (Ne.symm hne), hne⟩

/-- Witness for C8 at a concrete two-valued clock. -/
theorem c8_witness :
    Monotone myClock ∧ myClock 0 = "a" ∧
      "a" < timestamp_spin myClock "a" myClockEx ∧
      timestamp_spin myClock "a" myClockEx ≠ "a" := by
  have hab : ("a" : String) < "b" := by
    rw [String.lt_iff_toList_lt]; decide
  have hmono : Monotone myClock := by
    intro i j hij
    by_cases hi : i = 0
    · by_cases hj : j = 0
      · simp [myClock, hi, hj]
      · simp only [myClock, hi, hj, if_true, if_false]
        exact le_of_lt hab
    · have hj : j ≠ 0 := by omega
      simp [myClock, hi, hj]
  have h := c8_timestamp_monotonic myClock "a" hmono rfl myClockEx
  exact ⟨hmono, rfl, h.1, h.2⟩

theorem mapM_alookup_eq (g : List (String × DataArr)) :
    ∀ (l : List String) (f : String → DataArr),
    (∀ q ∈ l, alookup g q = some (f q)) →
    l.mapM (fun p => alookup g p) = some (l.map f) := by
  intro l f h
  induction l with
  | nil => rfl
  | cons q t ih =>
    rw [List.mapM_cons, h q (List.mem_cons_self _ _),
      ih (fun q' hq' => h q' (List.mem_cons_of_mem _ hq'))]
    rfl

/-- Claim C10: `load_data` wraps a single string pixel id into a one-element list and always returns a list of arrays: one array for a single id, and n arrays in iterable order for an iterable of n ids. -/
theorem c10_load_data (db : DB) (dataset : String) (g : Dataset) (p : String) (a : DataArr)
    (pids : List String) (f : String → DataArr)
    (hres : db.resolve dataset = some g)
    (hp : alookup g.pixels p = some a)
    (hf : ∀ q ∈ pids, alookup g.pixels q = some (f q)) :
    db.load_data dataset (Sum.inl p) = some [a] ∧
    db.load_data dataset (Sum.inr pids) = some (pids.map f) := by
  constructor
  · simp only [DB.load_data, hres, Option.bind_eq_bind, Option.some_bind]
    rw [show [p].mapM (fun q => alookup g.pixels q) = some ([p].map (fun _ => a)) from
      mapM_alookup_eq g.pixels [p] (fun _ => a) (by simpa using hp)]
    rfl
  · simp only [DB.load_data, hres, Option.bind_eq_bind, Option.some_bind]
    exact mapM_alookup_eq g.pixels pids f hf

theorem map_hash_inj (hash : String → String) :
    ∀ (l₁ l₂ : List String), (∀ a ∈ l₁, ∀ b ∈ l₂, hash a = hash b → a = b) →
    l₁.map hash = l₂.map hash → l₁ = l₂ := by
  intro l₁
  induction l₁ with
  | nil => intro l₂ _ h; cases l₂ <;> simp_all
  | cons x t ih =>
    intro l₂ hinj h
    cases l₂ with
    | nil => simp at h
    | cons y t' =>
      simp only [List.map_cons, List.cons.injEq] at h
      have hx : x = y := hinj x (List.mem_cons_self _ _) y (List.mem_cons_self _ _) h.1
      have ht : t = t' := ih t' (fun a ha b hb => hinj a (List.mem_cons_of_mem _ ha)
        b (List.mem_cons_of_mem _ hb)) h.2
      rw [hx, ht]

/-- Claim C6 (amended): the settings key is deterministic, but injective only up to collisions of the concatenation `str(key) + str(value)` (which has no separator), besides genuine hash collisions: under an injective hash with `:`-free nonempty outputs, two settings maps yield the same key exactly when their concatenation lists coincide. -/
theorem c6_settings_key_amended (hash : String → String)
    (s₁ s₂ : List (String × DBValue))
    (hinj : ∀ kv ∈ s₁, ∀ kv' ∈ s₂, hash (kv.1 ++ DBValue.pyStr kv.2)
      = hash (kv'.1 ++ DBValue.pyStr kv'.2) → kv.1 ++ DBValue.pyStr kv.2
      = kv'.1 ++ DBValue.pyStr kv'.2)
    (hout₁ : ∀ kv ∈ s₁, (hash (kv.1 ++ DBValue.pyStr kv.2)).data ≠ [] ∧
      ':' ∉ (hash (kv.1 ++ DBValue.pyStr kv.2)).data)
    (hout₂ : ∀ kv ∈ s₂, (hash (kv.1 ++ DBValue.pyStr kv.2)).data ≠ [] ∧
      ':' ∉ (hash (kv.1 ++ DBValue.pyStr kv.2)).data) :
    parse_settings_hash hash s₁ = parse_settings_hash hash s₂ ↔
      s₁.map (fun kv => kv.1 ++ DBValue.pyStr kv.2)
        = s₂.map (fun kv => kv.1 ++ DBValue.pyStr kv.2) := by
  constructor
  · intro h
    unfold parse_settings_hash at h
    have hj := strJoin_inj (s₁.map fun kv => hash (kv.1 ++ kv.2.pyStr))
      (s₂.map fun kv => hash (kv.1 ++ kv.2.pyStr))
      (by intro x hx
          rcases List.mem_map.mp hx with ⟨kv, hkv, rfl⟩
          exact hout₁ kv hkv)
      (by intro x hx
          rcases List.mem_map.mp hx with ⟨kv, hkv, rfl⟩
          exact hout₂ kv hkv) h
    have hmaps : (s₁.map fun kv => kv.1 ++ kv.2.pyStr).map hash
        = (s₂.map fun kv => kv.1 ++ kv.2.pyStr).map hash := by
      simpa [List.map_map, Function.comp] using hj
    apply map_hash_inj hash _ _ _ hmaps
    intro a ha b hb hab
    rcases List.mem_map.mp ha with ⟨kv, hkv, rfl⟩
    rcases List.mem_map.mp hb with ⟨kv', hkv', rfl⟩
    exact hinj kv hkv kv' hkv' hab
  · intro h
    unfold parse_settings_hash
    have : s₁.map (fun kv => hash (kv.1 ++ kv.2.pyStr))
        = s₂.map (fun kv => hash (kv.1 ++ kv.2.pyStr)) := by
      have h1 : (s₁.map fun kv => kv.1 ++ kv.2.pyStr).map hash
          = (s₂.map fun kv => kv.1 ++ kv.2.pyStr).map hash := by rw [h]
      simpa [List.map_map, Function.comp] using h1
    rw [this]

/-- Counterexample to C6 as stated: the settings maps {ab: c} and {a: bc} differ in every key and value yet produce the same key string, with no hash collision involved. -/
theorem c6_settings_key_counterexample :
    parse_settings_hash (fun s => s) [("ab", DBValue.s "c")]
      = parse_settings_hash (fun s => s) [("a", DBValue.s "bc")] ∧
    [("ab", DBValue.s "c")] ≠ [("a", DBValue.s "bc")] ∧
    ("ab" ++ DBValue.pyStr (DBValue.s "c")) = ("a" ++ DBValue.pyStr (DBValue.s "bc")) :=
  ⟨rfl, by decide, rfl⟩

/-- Witness for C6 (amended): with the identity hash, the keys for {x: 1} and {y: 1} differ, and the key computed twice agrees. -/
theorem c6_witness :
    (parse_settings_hash (fun s => s) [("x", DBValue.i 1)]
      = parse_settings_hash (fun s => s) [("y", DBValue.i 1)]) = False ∧
    parse_settings_hash (fun s => s) [("x", DBValue.i 1)]
      = parse_settings_hash (fun s => s) [("x", DBValue.i 1)] := by
  have h := c6_settings_key_amended (fun s => s) [("x", DBValue.i 1)] [("y", DBValue.i 1)]
    (by intro kv _ kv' _ hh; exact hh) (by decide) (by decide)
  constructor
  · simp only [eq_iff_iff, iff_false]
    intro hc
    have := h.mp hc
    simp only [List.map_cons, List.map_nil, List.cons.injEq, and_true] at this
    exact absurd this (by decide)
  · rfl

/-- Claim C9 (amended): `Metadata.__init__` validates nothing: every argument is stored unchanged whatever its shape, and no `ValidationError` is raised (none exists in the code). -/
theorem c9_no_validation_amended (hash : String → String) (cfg : Config)
    (measurement : String) (ms : List (String × DBValue)) (sid dev : String)
    (chs : List String) (chss : List (List (String × DBValue))) (itf sdim : String)
    (pids : List String) (ppos : List (Int × Int)) (pdims : List String)
    (kwargs : List (String × String)) :
    (Metadata.init hash cfg measurement ms sid dev chs chss itf sdim pids ppos pdims
        kwargs).measurement = measurement ∧
    (Metadata.init hash cfg measurement ms sid dev chs chss itf sdim pids ppos pdims
        kwargs).measurement_settings = ms ∧
    (Metadata.init hash cfg measurement ms sid dev chs chss itf sdim pids ppos pdims
        kwargs).sample_id = sid ∧
    (Metadata.init hash cfg measurement ms sid dev chs chss itf sdim pids ppos pdims
        kwargs).channels_settings = chss ∧
    (Metadata.init hash cfg measurement ms sid dev chs chss itf sdim pids ppos pdims
        kwargs).pixel_positions = ppos :=
  ⟨rfl, rfl, rfl, rfl, rfl⟩

/-- Counterexample to C9 as stated: a two-dimensional (pair-array) settings value is accepted by the constructor and stored unchanged, with no synchronous error. -/
theorem c9_validation_counterexample :
    (Metadata.init rawHash demoCfg "M" [("a", DBValue.pairs [(1, 2), (3, 4)])] "S" "D"
        ["C"] [[]] "I" "Point:" ["0"] [(0, 0)] ["Point:"] []).measurement_settings
      = [("a", DBValue.pairs [(1, 2), (3, 4)])] := rfl

/-- Claim C7 (amended): `filter_by_settings` returns exactly the dataset paths under the measurement whose stored settings key contains, among its `:`-split fragments, every fragment of the query's settings hash. Because Python's `''.split(':')` is `['']`, the empty query produces the single criterion `""`, which no ordinary stored key contains, so `{}` matches nothing rather than everything. -/
theorem c7_filter_amended (hash : String → String) (db : DB) (measurement : String)
    (settings : List (String × DBValue)) (mg : List (String × SettingsGroup))
    (hmg : alookup db.groups measurement = some mg) (path : String) :
    path ∈ (db.filter_by_settings hash measurement settings).getD [] ↔
      ∃ entry ∈ mg, ∃ leaf ∈ entry.2.leaves,
        path = "/" ++ measurement ++ "/" ++ entry.1 ++ "/" ++ leaf.1 ∧
        ∀ c ∈ pySplit ':' (parse_settings_hash hash settings), c ∈ pySplit ':' entry.1 := by
  unfold DB.filter_by_settings
  rw [hmg]
  simp only [Option.map_some', Option.getD_some]
  constructor
  · intro hmem
    rcases List.mem_flatten.mp hmem with ⟨block, hblock, hpath⟩
    rcases List.mem_map.mp hblock with ⟨entry, hentry, rfl⟩
    by_cases hcond : ((pySplit ':' (parse_settings_hash hash settings)).all
        (fun c => (pySplit ':' entry.1).contains c)) = true
    · rw [if_pos hcond] at hpath
      rcases List.mem_map.mp hpath with ⟨leaf, hleaf, rfl⟩
      refine ⟨entry, hentry, leaf, hleaf, rfl, ?_⟩
      intro c hc
      have := List.all_eq_true.mp hcond c hc
      simpa using this
    · rw [if_neg hcond] at hpath
      simp at hpath
  · rintro ⟨entry, hentry, leaf, hleaf, rfl, hc⟩
    apply List.mem_flatten.mpr
    refine ⟨_, List.mem_map.mpr ⟨entry, hentry, rfl⟩, ?_⟩
    rw [if_pos ?_]
    · exact List.mem_map.mpr ⟨leaf, hleaf, rfl⟩
    · apply List.all_eq_true.mpr
      intro c hcmem
      simpa using hc c hcmem

/-- Counterexample to C7 as stated: on a store holding one dataset, the empty query returns the empty list instead of every dataset, while the full-settings query does return the dataset. -/
theorem c7_filter_empty_counterexample :
    DB.filter_by_settings rawHash demoDB1 "IV" [] = some [] ∧
    DB.filter_by_settings rawHash demoDB1 "IV" [("a", DBValue.i 1)]
      = some ["/IV/a1/00000000000000000000000001-S1"] :=
  ⟨by decide, by decide⟩

/-- Witness for C7 (amended) at a concrete store and full-settings query. -/
theorem c7_witness :
    alookup demoDB1.groups "IV" = some demoMG ∧
    "/IV/a1/00000000000000000000000001-S1"
      ∈ (DB.filter_by_settings rawHash demoDB1 "IV" [("a", DBValue.i 1)]).getD [] :=
  ⟨by decide,
    (c7_filter_amended rawHash demoDB1 "IV" [("a", DBValue.i 1)] demoMG (by decide)
      "/IV/a1/00000000000000000000000001-S1").mpr (by decide)⟩

theorem save_data_resolve (db : DB) (g : Dataset) (d p : String) (a : DataArr)
    (hres : db.resolve d = some g) (hfresh : alookup g.pixels p = none) :
    ∃ db', db.save_data a d p = some db' ∧
      db'.resolve d = some ⟨g.attrs, g.pixels ++ [(p, a)]⟩ ∧
      db'.samples = db.samples ∧ db'.tick = db.tick := by
  unfold DB.resolve DB.resolvePath at hres
  unfold DB.save_data DB.savePath
  split at hres
  case h_2 => exact absurd hres (by simp)
  case h_1 mname hname lname heq =>
    simp only [Option.bind_eq_bind, Option.bind_eq_some] at hres
    rcases hres with ⟨mg, hmg, sg, hsg, hleaf⟩
    simp only [hmg, hsg, hleaf, Option.getD_some]
    rw [if_neg (by simp [hfresh])]
    refine ⟨_, rfl, ?_, rfl, rfl⟩
    unfold DB.resolve DB.resolvePath
    rw [heq]
    simp only [Option.bind_eq_bind]
    rw [alookup_aset_self]
    simp only [Option.some_bind]
    rw [alookup_aset_self]
    simp only [Option.some_bind]
    rw [alookup_aset_self]

theorem execLoop_spec (run : String → DataArr) (d : String) :
    ∀ (pixels : List String) (db : DB) (idx : Int) (g : Dataset),
    db.resolve d = some g →
    (∀ p ∈ pixels, alookup g.pixels p = none) →
    pixels.Nodup →
    ∃ db', execLoop run d pixels db idx
        = some (db', idx + pixels.length, canonicalTrace idx pixels) ∧
      db'.resolve d = some ⟨g.attrs, g.pixels ++ pixels.map (fun p => (p, run p))⟩ := by
  intro pixels
  induction pixels with
  | nil =>
    intro db idx g hres _ _
    refine ⟨db, ?_, ?_⟩
    · simp [execLoop, canonicalTrace]
    · simpa using hres
  | cons p rest ih =>
    intro db idx g hres hfresh hnd
    obtain ⟨db1, hsave, hres1, _, _⟩ := save_data_resolve db g d p (run p)
      hres (hfresh p (List.mem_cons_self _ _))
    have hfresh1 : ∀ q ∈ rest, alookup (g.pixels ++ [(p, run p)]) q = none := by
      intro q hq
      have hqp : q ≠ p := by
        intro hc
        subst hc
        exact (List.nodup_cons.mp hnd).1 hq
      rw [alookup_append_right _ _ _ (hfresh q (List.mem_cons_of_mem _ hq))]
      simp [alookup, hqp, Ne.symm hqp]
    obtain ⟨db2, hloop, hres2⟩ := ih db1 (idx + 1) ⟨g.attrs, g.pixels ++ [(p, run p)]⟩
      hres1 hfresh1 (List.nodup_cons.mp hnd).2
    refine ⟨db2, ?_, ?_⟩
    · unfold execLoop
      simp only [Option.bind_eq_bind, hsave, Option.some_bind, hloop, Option.some_bind]
      simp only [canonicalTrace, List.length_cons]
      have harith : idx + 1 + (rest.length : Int) = idx + ((rest.length + 1 : Nat) : Int) := by
        push_cast
        ring
      rw [harith]
    · simpa [List.append_assoc] using hres2

theorem canonicalTrace_setIdx_before_run :
    ∀ (pixels : List String) (idx : Int) (i : Nat) (hi : i < pixels.length),
    pixels.Nodup →
    ∃ pre post, canonicalTrace idx pixels = pre ++ Event.setIdx (idx + 1 + i) :: post ∧
      Event.runMeas (pixels.get ⟨i, hi⟩) ∈ post ∧
      Event.runMeas (pixels.get ⟨i, hi⟩) ∉ pre := by
  intro pixels
  induction pixels with
  | nil =>
    intro idx i hi
    simp at hi
  | cons p rest ih =>
    intro idx i hi hnd
    cases i with
    | zero =>
      refine ⟨[], Event.selectPixel p :: Event.runMeas p :: Event.save p
        :: canonicalTrace (idx + 1) rest, ?_, ?_, ?_⟩
      · simp [canonicalTrace]
      · simp [List.get]
      · simp
    | succ j =>
      have hj : j < rest.length := by simpa using hi
      obtain ⟨pre, post, hdecomp, hmem, hnot⟩ := ih (idx + 1) j hj (List.nodup_cons.mp hnd).2
      have hget : (p :: rest).get ⟨j + 1, hi⟩ = rest.get ⟨j, hj⟩ := rfl
      have hne : rest.get ⟨j, hj⟩ ≠ p := by
        intro hc
        exact (List.nodup_cons.mp hnd).1 (hc ▸ List.get_mem rest j hj)
      have harith : (idx + 1) + 1 + (j : Int) = idx + 1 + ((j + 1 : Nat) : Int) := by
        push_cast
        ring
      refine ⟨Event.setIdx (idx + 1) :: Event.selectPixel p :: Event.runMeas p
        :: Event.save p :: pre, post, ?_, ?_, ?_⟩
      · simp only [canonicalTrace, List.cons_append]
        rw [hdecomp, harith]
      · rw [hget]
        exact hmem
      · rw [hget]
        simp only [List.mem_cons, not_or]
        refine ⟨by simp, by simp, ?_, by simp, hnot⟩
        simpa using hne

/-- Claim C2: a full run started from READY iterates the selected pixels in list order; each pixel's index increment (`setIdx i`) occurs strictly before that pixel's measurement event, the results are persisted under the dataset path keyed by pixel id in list order, and afterwards the state is FINISHED with the index equal to the number of selected pixels. -/
theorem c2_execute_full_run (run : String → DataArr) (db : DB) (e : Exp) (d : String)
    (g : Dataset)
    (hstate : e.state = ExperimentState.READY)
    (hidx : e.currentPixelIdx = -1)
    (hds : e.dataset = some d)
    (hres : db.resolve d = some g)
    (hempty : g.pixels = [])
    (hnd : e.selectedPixels.Nodup) :
    ∃ e2 db2,
      startAct e = (none, { e with state := ExperimentState.RUNNING }) ∧
      Exp.execute run db { e with state := ExperimentState.RUNNING }
        = (none, e2, db2,
            canonicalTrace (-1) e.selectedPixels
              ++ [Event.setIdx e.selectedPixels.length]) ∧
      e2.state = ExperimentState.FINISHED ∧
      e2.currentPixelIdx = e.selectedPixels.length ∧
      db2.resolve d = some ⟨g.attrs, e.selectedPixels.map (fun p => (p, run p))⟩ ∧
      (∀ i (hi : i < e.selectedPixels.length),
        ∃ pre post,
          canonicalTrace (-1) e.selectedPixels ++ [Event.setIdx e.selectedPixels.length]
            = pre ++ Event.setIdx i :: post ∧
          Event.runMeas (e.selectedPixels.get ⟨i, hi⟩) ∈ post ∧
          Event.runMeas (e.selectedPixels.get ⟨i, hi⟩) ∉ pre) := by
  have hfresh : ∀ p ∈ e.selectedPixels, alookup g.pixels p = none := by
    intro p _
    rw [hempty]
    rfl
  obtain ⟨db2, hloop, hres2⟩ := execLoop_spec run d e.selectedPixels db (-1) g hres hfresh hnd
  refine ⟨⟨e.comp, e.sampleId, e.selectedPixels, ExperimentState.FINISHED,
    (e.selectedPixels.length : Int), e.dataset⟩, db2, ?_, ?_, rfl, rfl, ?_, ?_⟩
  · unfold startAct
    rw [if_pos hstate]
  · unfold Exp.execute
    simp only [if_pos (show ({ e with state := ExperimentState.RUNNING } : Exp).state
      = ExperimentState.RUNNING from rfl)]
    have hpath : pyStrOpt ({ e with state := ExperimentState.RUNNING } : Exp).dataset = d := by
      show pyStrOpt e.dataset = d
      rw [hds]
      rfl
    rw [hpath]
    have hidx' : ({ e with state := ExperimentState.RUNNING } : Exp).currentPixelIdx = -1 :=
      hidx
    rw [hidx', hloop]
    have h1 : (-1 : Int) + e.selectedPixels.length + 1 = e.selectedPixels.length := by ring
    simp only
    rw [h1]
    simp
  · rw [hempty] at hres2
    simpa using hres2
  · intro i hi
    obtain ⟨pre, post, hdecomp, hmem, hnot⟩ :=
      canonicalTrace_setIdx_before_run e.selectedPixels (-1) i hi hnd
    refine ⟨pre, post ++ [Event.setIdx e.selectedPixels.length], ?_, ?_, hnot⟩
    · rw [hdecomp]
      have : (-1 : Int) + 1 + i = i := by ring
      rw [this]
      simp
    · exact List.mem_append_left _ hmem

theorem initialize_dataset_eq (db : DB) (m : Metadata)
    (hleaf : alookup ((alookup ((alookup db.groups m.measurement).getD [])
        m.settings_hash).getD ⟨m.measurement_settings, []⟩).leaves
        (tsStr (db.tick + 1) ++ "-" ++ m.sample_id) = none)
    (hts : alookup ((alookup db.samples m.sample_id).getD [])
        (tsStr (db.tick + 1)) = none) :
    initialize_dataset db m = some (
      "/" ++ m.measurement ++ "/" ++ m.settings_hash ++ "/"
        ++ tsStr (db.tick + 1) ++ "-" ++ m.sample_id,
      ⟨db.tick + 1,
       aset db.groups m.measurement (aset ((alookup db.groups m.measurement).getD [])
         m.settings_hash
         ⟨((alookup ((alookup db.groups m.measurement).getD []) m.settings_hash).getD
             ⟨m.measurement_settings, []⟩).attrs,
          ((alookup ((alookup db.groups m.measurement).getD []) m.settings_hash).getD
             ⟨m.measurement_settings, []⟩).leaves
            ++ [(tsStr (db.tick + 1) ++ "-" ++ m.sample_id,
                 ⟨flatAttrs (dcmiFill m ("/" ++ m.measurement ++ "/" ++ m.settings_hash
                    ++ "/" ++ tsStr (db.tick + 1) ++ "-" ++ m.sample_id)
                    (tsStr (db.tick + 1))), []⟩)]⟩),
       aset db.samples m.sample_id (((alookup db.samples m.sample_id).getD [])
         ++ [(tsStr (db.tick + 1),
              "/" ++ m.measurement ++ "/" ++ m.settings_hash ++ "/"
                ++ tsStr (db.tick + 1) ++ "-" ++ m.sample_id)])⟩,
      dcmiFill m ("/" ++ m.measurement ++ "/" ++ m.settings_hash ++ "/"
        ++ tsStr (db.tick + 1) ++ "-" ++ m.sample_id) (tsStr (db.tick + 1))) := by
  unfold initialize_dataset
  simp only
  rw [if_neg (by simp [hleaf]), if_neg (by simp [hts])]

theorem delete_after_initialize (db : DB) (m : Metadata)
    (hm : ('/' : Char) ∉ m.measurement.data)
    (hh : ('/' : Char) ∉ m.settings_hash.data)
    (hs : ('/' : Char) ∉ m.sample_id.data)
    (hleaf : alookup ((alookup ((alookup db.groups m.measurement).getD [])
        m.settings_hash).getD ⟨m.measurement_settings, []⟩).leaves
        (tsStr (db.tick + 1) ++ "-" ++ m.sample_id) = none)
    (hts : alookup ((alookup db.samples m.sample_id).getD [])
        (tsStr (db.tick + 1)) = none)
    (ds : String) (db1 : DB) (m' : Metadata)
    (hinit : initialize_dataset db m = some (ds, db1, m')) :
    ∃ db2, db1.delete_dataset ds = some db2 ∧
      alookup db2.samples m.sample_id = some ((alookup db.samples m.sample_id).getD []) := by
  rw [initialize_dataset_eq db m hleaf hts] at hinit
  simp only [Option.some.injEq, Prod.mk.injEq] at hinit
  obtain ⟨hds, hdb1, _⟩ := hinit
  set ts := tsStr (db.tick + 1) with hts_def
  set leafName := ts ++ "-" ++ m.sample_id with hleaf_def
  have hleafslash : ('/' : Char) ∉ leafName.data := by
    rw [hleaf_def]
    intro hc
    rw [sdata_append, sdata_append] at hc
    rcases List.mem_append.mp hc with h1 | h2
    · rcases List.mem_append.mp h1 with h3 | h4
      · exact tsStr_no_slash _ h3
      · simp at h4
    · exact hs h2
  have hsplit : pySplit '/' ds = ["", m.measurement, m.settings_hash, leafName] := by
    rw [← hds]
    have : "/" ++ m.measurement ++ "/" ++ m.settings_hash ++ "/" ++ ts ++ "-" ++ m.sample_id
        = "/" ++ m.measurement ++ "/" ++ m.settings_hash ++ "/" ++ leafName := by
      rw [hleaf_def]
      simp [String.append_assoc]
    rw [this]
    exact pySplit_path4 _ _ _ hm hh hleafslash
  subst hdb1
  unfold DB.delete_dataset
  rw [hsplit]
  have hgl : (["", m.measurement, m.settings_hash, leafName] : List String).getLastD ""
      = leafName := rfl
  rw [hgl]
  have hts26 : ts.data.length = 26 := tsStr_length _
  have e_ts : String.mk (leafName.data.take 26) = ts := by
    rw [hleaf_def, leaf_take _ _ hts26]
  have e_sid : String.mk (leafName.data.drop 27) = m.sample_id := by
    rw [hleaf_def, leaf_drop _ _ hts26]
  simp only
  rw [e_ts, e_sid]
  rw [alookup_aset_self]
  simp only
  rw [alookup_append_right _ _ _ hts]
  simp only [alookup, if_pos rfl, Option.isSome_some, if_true]
  rw [alookup_aset_self]
  simp only
  rw [alookup_aset_self]
  simp only
  rw [alookup_append_right _ _ _ hleaf]
  simp only [alookup, if_pos rfl, Option.isSome_some, if_true]
  refine ⟨_, rfl, ?_⟩
  rw [aerase_append_right _ _ _ hts]
  simp only [aerase, if_pos rfl, List.append_nil]
  rw [alookup_aset_self]
  simp

theorem setupAct_eq (hash : String → String) (cfg : Config) (db : DB) (e : Exp)
    (hstate : e.state = ExperimentState.INITIAL ∨ e.state = ExperimentState.FINISHED ∨
      e.state = ExperimentState.ABORTED)
    (ds : String) (db1 : DB) (m' : Metadata)
    (hinit : initialize_dataset db (setupMetadata hash cfg e) = some (ds, db1, m')) :
    setupAct hash cfg db e = (none, ⟨e.comp, e.sampleId, e.selectedPixels,
      ExperimentState.READY, -1, some ds⟩, db1) := by
  unfold setupAct
  rw [if_pos hstate]
  simp only
  rw [hinit]

/-- Claim C3: `setup()` followed immediately by `abort()` (state READY, nothing written) returns the experiment to INITIAL and removes the dataset registered by `setup()` from the SAMPLES index, so `filter_by_sample_id` no longer reports it. -/
theorem c3_abort_before_write (hash : String → String) (cfg : Config) (db : DB) (e : Exp)
    (hstate : e.state = ExperimentState.INITIAL)
    (hm : ('/' : Char) ∉ e.comp.measurementName.data)
    (hh : ('/' : Char) ∉ (parse_settings_hash hash e.comp.measurementSettings).data)
    (hs : ('/' : Char) ∉ e.sampleId.data)
    (hleaf : alookup ((alookup ((alookup db.groups e.comp.measurementName).getD [])
        (parse_settings_hash hash e.comp.measurementSettings)).getD
        ⟨e.comp.measurementSettings, []⟩).leaves
        (tsStr (db.tick + 1) ++ "-" ++ e.sampleId) = none)
    (hts : alookup ((alookup db.samples e.sampleId).getD [])
        (tsStr (db.tick + 1)) = none)
    (hfresh : ("/" ++ e.comp.measurementName ++ "/"
        ++ parse_settings_hash hash e.comp.measurementSettings ++ "/"
        ++ tsStr (db.tick + 1) ++ "-" ++ e.sampleId)
      ∉ ((alookup db.samples e.sampleId).getD []).map Prod.snd) :
    ∃ ds e1 db1 e2 db2,
      setupAct hash cfg db e = (none, e1, db1) ∧
      e1.dataset = some ds ∧
      e1.state = ExperimentState.READY ∧
      abortAct db1 e1 = (none, e2, db2) ∧
      e2.state = ExperimentState.INITIAL ∧
      e2.dataset = none ∧
      db2.filter_by_sample_id e.sampleId
        = some (((alookup db.samples e.sampleId).getD []).map Prod.snd) ∧
      ds ∉ (db2.filter_by_sample_id e.sampleId).getD [] := by
  obtain ⟨ds, db1, m', hinit, hdseq⟩ :
      ∃ ds db1 m', initialize_dataset db (setupMetadata hash cfg e) = some (ds, db1, m')
        ∧ ds = "/" ++ e.comp.measurementName ++ "/"
            ++ parse_settings_hash hash e.comp.measurementSettings ++ "/"
            ++ tsStr (db.tick + 1) ++ "-" ++ e.sampleId :=
    ⟨_, _, _, initialize_dataset_eq db (setupMetadata hash cfg e) hleaf hts, rfl⟩
  have hsetup := setupAct_eq hash cfg db e (Or.inl hstate) ds db1 m' hinit
  obtain ⟨db2, hdel, hsam⟩ := delete_after_initialize db (setupMetadata hash cfg e)
    hm hh hs hleaf hts ds db1 m' hinit
  have habort : abortAct db1 ⟨e.comp, e.sampleId, e.selectedPixels,
      ExperimentState.READY, -1, some ds⟩
      = (none, ⟨e.comp, e.sampleId, e.selectedPixels,
        ExperimentState.INITIAL, -2, none⟩, db2) := by
    unfold abortAct
    rw [if_pos (Or.inl rfl)]
    rw [if_pos rfl]
    simp only
    rw [hdel]
  have hsam2 : alookup db2.samples e.sampleId
      = some ((alookup db.samples e.sampleId).getD []) := hsam
  have hfilter : db2.filter_by_sample_id e.sampleId
      = some (((alookup db.samples e.sampleId).getD []).map Prod.snd) := by
    unfold DB.filter_by_sample_id
    rw [hsam2]
    rfl
  refine ⟨ds, _, db1, _, db2, hsetup, rfl, rfl, habort, rfl, rfl, hfilter, ?_⟩
  rw [hfilter]
  simp only [Option.getD_some]
  rw [hdseq]
  exact hfresh

/-- Witness for C3 at a concrete experiment on the empty store. -/
theorem c3_witness :
    demoExp.state = ExperimentState.INITIAL ∧
    (setupAct (fun s => s) demoCfg emptyDB demoExp).1 = none ∧
    (abortAct (setupAct (fun s => s) demoCfg emptyDB demoExp).2.2
        (setupAct (fun s => s) demoCfg emptyDB demoExp).2.1).2.1.state
      = ExperimentState.INITIAL ∧
    ((abortAct (setupAct (fun s => s) demoCfg emptyDB demoExp).2.2
        (setupAct (fun s => s) demoCfg emptyDB demoExp).2.1).2.2).filter_by_sample_id "S1"
      = some [] := by
  obtain ⟨ds, e1, db1, e2, db2, hsetup, hds, he1, habort, hst, hdsn, hfil, hnot⟩ :=
    c3_abort_before_write (fun s => s) demoCfg emptyDB demoExp rfl (by decide) (by decide)
      (by decide) (by decide) (by decide) (by decide)
  refine ⟨rfl, ?_, ?_, ?_⟩
  · rw [hsetup]
  · rw [hsetup]
    simp only
    rw [habort]
    exact hst
  · rw [hsetup]
    simp only
    rw [habort]
    simp only
    have hfil2 : db2.filter_by_sample_id "S1"
        = some (List.map Prod.snd ((alookup emptyDB.samples "S1").getD [])) := hfil
    rw [hfil2]
    rfl

/-- Claim C1: invoking any action that the transition table does not list as valid in the current state yields `StateError` (carrying that state) and leaves the experiment and the store unchanged. -/
theorem c1_state_machine_legality (hash : String → String) (cfg : Config) (db : DB)
    (e : Exp) (a : Action) (h : specValid e.state a = false) :
    applyAction hash cfg db e a = (some (ExpError.stateErr e.state), e, db) := by
  obtain ⟨comp, sid, sel, st, idx, ds⟩ := e
  cases a <;> cases st <;>
    simp_all [applyAction, setupAct, startAct, abortAct, previewAct, specValid]

/-- Witness for C1 at a concrete experiment: `start` in state INITIAL is rejected with `StateError` and changes nothing. -/
theorem c1_witness :
    specValid demoExp.state Action.start = false ∧
      applyAction rawHash demoCfg emptyDB demoExp Action.start
        = (some (ExpError.stateErr demoExp.state), demoExp, emptyDB) :=
  ⟨by decide, c1_state_machine_legality rawHash demoCfg emptyDB demoExp Action.start (by decide)⟩

/-- Claim C4 (amended): for a well-formed Metadata (distinct flat attribute keys, prefix-recoverable settings keys, per-channel settings aligned with the channels), `load_metadata` after `initialize_dataset` reproduces every plain field and the settings mappings, but the DCMI mapping is reset to the constructor defaults instead of round-tripping: the reconstructed DCMI dict is passed to the constructor as the keyword argument `dcmi`, which `Metadata.__init__` drops because `dcmi` is not a DCMI term. -/
theorem c4_roundtrip_amended (hash : String → String) (cfg : Config) (db : DB) (m : Metadata)
    (hm : ('/' : Char) ∉ m.measurement.data)
    (hh : ('/' : Char) ∉ m.settings_hash.data)
    (hs : ('/' : Char) ∉ m.sample_id.data)
    (hleaf : alookup ((alookup ((alookup db.groups m.measurement).getD [])
        m.settings_hash).getD ⟨m.measurement_settings, []⟩).leaves
        (tsStr (db.tick + 1) ++ "-" ++ m.sample_id) = none)
    (hts : alookup ((alookup db.samples m.sample_id).getD [])
        (tsStr (db.tick + 1)) = none)
    (hnd : ((flatAttrs m).map Prod.fst).Nodup)
    (hlen : m.channels.length = m.channels_settings.length)
    (hmsF : ((flatAttrs m).map Prod.fst).filter
        (fun k => (m.measurement ++ "_").data.isPrefixOf k.data)
        = m.measurement_settings.map (fun kv => m.measurement ++ "_" ++ kv.1))
    (hmsR : ∀ kv ∈ m.measurement_settings,
        pyReplace (m.measurement ++ "_") "" (m.measurement ++ "_" ++ kv.1) = kv.1)
    (hchF : ∀ cp ∈ m.channels.zip m.channels_settings,
        ((flatAttrs m).map Prod.fst).filter
          (fun k => (cp.1 ++ "_").data.isPrefixOf k.data)
          = cp.2.map (fun kv => cp.1 ++ "_" ++ kv.1))
    (hchR : ∀ cp ∈ m.channels.zip m.channels_settings, ∀ kv ∈ cp.2,
        pyReplace (cp.1 ++ "_") "" (cp.1 ++ "_" ++ kv.1) = kv.1)
    (hdcF : ((flatAttrs m).map Prod.fst).filter
        (fun k => "dcmi_".data.isPrefixOf k.data)
        = m.dcmi.map (fun kv => "dcmi_" ++ kv.1))
    (hdcR : ∀ k ∈ m.dcmi.map Prod.fst, pyReplace "dcmi_" "" ("dcmi_" ++ k) = k)
    (ds : String) (db1 : DB) (m' : Metadata)
    (hinit : initialize_dataset db m = some (ds, db1, m')) :
    ∃ lm, load_metadata hash cfg db1 ds = some lm ∧
      lm.measurement = m.measurement ∧
      lm.measurement_settings = m.measurement_settings ∧
      lm.sample_id = m.sample_id ∧
      lm.device = m.device ∧
      lm.channels = m.channels ∧
      lm.channels_settings = m.channels_settings ∧
      lm.interface = m.interface ∧
      lm.sample_dimensions = m.sample_dimensions ∧
      lm.pixel_ids = m.pixel_ids ∧
      lm.pixel_positions = m.pixel_positions ∧
      lm.pixel_dimensions = m.pixel_dimensions ∧
      lm.dcmi = dcmiDefaults cfg := by
  rw [initialize_dataset_eq db m hleaf hts] at hinit
  simp only [Option.some.injEq, Prod.mk.injEq] at hinit
  obtain ⟨hds, hdb1, hm'⟩ := hinit
  subst hds
  subst hdb1
  subst hm'
  -- abbreviations
  have hts26 : (tsStr (db.tick + 1)).data.length = 26 := tsStr_length _
  have hleafslash : ('/' : Char) ∉ (tsStr (db.tick + 1) ++ "-" ++ m.sample_id).data := by
    intro hc
    rw [sdata_append, sdata_append] at hc
    rcases List.mem_append.mp hc with h1 | h2
    · rcases List.mem_append.mp h1 with h3 | h4
      · exact tsStr_no_slash _ h3
      · simp at h4
    · exact hs h2
  have hsplit : pySplit '/' ("/" ++ m.measurement ++ "/" ++ m.settings_hash ++ "/"
      ++ tsStr (db.tick + 1) ++ "-" ++ m.sample_id)
      = ["", m.measurement, m.settings_hash, tsStr (db.tick + 1) ++ "-" ++ m.sample_id] := by
    have he : "/" ++ m.measurement ++ "/" ++ m.settings_hash ++ "/"
        ++ tsStr (db.tick + 1) ++ "-" ++ m.sample_id
        = "/" ++ m.measurement ++ "/" ++ m.settings_hash ++ "/"
          ++ (tsStr (db.tick + 1) ++ "-" ++ m.sample_id) := by
      simp [String.append_assoc]
    rw [he]
    exact pySplit_path4 _ _ _ hm hh hleafslash

  set ts := tsStr (db.tick + 1) with htsdef
  set m2 := dcmiFill m ("/" ++ m.measurement ++ "/" ++ m.settings_hash ++ "/"
      ++ ts ++ "-" ++ m.sample_id) ts with hm2def
  have hres : DB.resolve
      ⟨db.tick + 1,
       aset db.groups m.measurement (aset ((alookup db.groups m.measurement).getD [])
         m.settings_hash
         ⟨((alookup ((alookup db.groups m.measurement).getD []) m.settings_hash).getD
             ⟨m.measurement_settings, []⟩).attrs,
          ((alookup ((alookup db.groups m.measurement).getD []) m.settings_hash).getD
             ⟨m.measurement_settings, []⟩).leaves
            ++ [(ts ++ "-" ++ m.sample_id, ⟨flatAttrs m2, []⟩)]⟩),
       aset db.samples m.sample_id (((alookup db.samples m.sample_id).getD [])
         ++ [(ts, "/" ++ m.measurement ++ "/" ++ m.settings_hash ++ "/"
              ++ ts ++ "-" ++ m.sample_id)])⟩
      ("/" ++ m.measurement ++ "/" ++ m.settings_hash ++ "/" ++ ts ++ "-" ++ m.sample_id)
      = some ⟨flatAttrs m2, []⟩ := by
    unfold DB.resolve DB.resolvePath
    rw [hsplit]
    simp only [Option.bind_eq_bind]
    rw [alookup_aset_self]
    simp only [Option.some_bind]
    rw [alookup_aset_self]
    simp only [Option.some_bind]
    rw [alookup_append_right _ _ _ hleaf]
    simp [alookup]
  have hKeq : (flatAttrs m2).map Prod.fst = (flatAttrs m).map Prod.fst := by
    rw [hm2def]
    exact flatAttrs_fill_keys m _ _
  have hndK2 : ((flatAttrs m2).map Prod.fst).Nodup := by
    rw [hKeq]
    exact hnd
  have hdk : m2.dcmi.map Prod.fst = m.dcmi.map Prod.fst := by
    rw [hm2def]
    exact dcmiFill_keys m _ _
  have hdcKeq : m2.dcmi.map (fun kv => "dcmi_" ++ kv.1)
      = m.dcmi.map (fun kv => "dcmi_" ++ kv.1) := by
    rw [hm2def]
    exact dcmi_map_key_fill m _ _
  have hfa2 : flatAttrs m2 = flatHead m
      ++ m2.dcmi.map (fun kv => ("dcmi_" ++ kv.1, DBValue.s (kv.2.getD "None"))) := by
    rw [hm2def]
    exact flatAttrs_fill m _ _
  -- decompose the Nodup hypothesis into segment facts
  have hnd2 := hnd
  rw [flatAttrs_keys_decomp] at hnd2
  rw [List.nodup_cons] at hnd2
  obtain ⟨hmeasNot, hnd3⟩ := hnd2
  rw [List.nodup_append] at hnd3
  obtain ⟨hmsNd, hnd4, hdisj1⟩ := hnd3
  rw [List.nodup_cons] at hnd4
  obtain ⟨hsidNot, hnd4⟩ := hnd4
  rw [List.nodup_cons] at hnd4
  obtain ⟨hdevNot, hnd4⟩ := hnd4
  rw [List.nodup_cons] at hnd4
  obtain ⟨hchanNot, hnd4⟩ := hnd4
  rw [List.nodup_append] at hnd4
  obtain ⟨hchNd, hnd5, hdisj2⟩ := hnd4
  rw [List.nodup_cons] at hnd5
  obtain ⟨hitfNot, hnd5⟩ := hnd5
  rw [List.nodup_cons] at hnd5
  obtain ⟨hsdNot, hnd5⟩ := hnd5
  rw [List.nodup_cons] at hnd5
  obtain ⟨hpidNot, hnd5⟩ := hnd5
  rw [List.nodup_cons] at hnd5
  obtain ⟨hppNot, hnd5⟩ := hnd5
  rw [List.nodup_cons] at hnd5
  obtain ⟨hpdNot, hdcNd⟩ := hnd5
  -- disjointness consequences
  have hNotMs_ch : ∀ k ∈ ((m.channels.zip m.channels_settings).map
      (fun cp => cp.2.map (fun kv => cp.1 ++ "_" ++ kv.1))).flatten,
      k ∉ m.measurement_settings.map (fun kv => m.measurement ++ "_" ++ kv.1) :=
    fun k hk hc => hdisj1 hc (List.mem_cons_of_mem _ (List.mem_cons_of_mem _
      (List.mem_cons_of_mem _ (List.mem_append_left _ hk))))
  have hNotMs_dc : ∀ k ∈ m.dcmi.map (fun kv => "dcmi_" ++ kv.1),
      k ∉ m.measurement_settings.map (fun kv => m.measurement ++ "_" ++ kv.1) :=
    fun k hk hc => hdisj1 hc (List.mem_cons_of_mem _ (List.mem_cons_of_mem _
      (List.mem_cons_of_mem _ (List.mem_append_right _ (List.mem_cons_of_mem _
        (List.mem_cons_of_mem _ (List.mem_cons_of_mem _ (List.mem_cons_of_mem _
          (List.mem_cons_of_mem _ hk)))))))))
  have hNotCh_dc : ∀ k ∈ m.dcmi.map (fun kv => "dcmi_" ++ kv.1),
      k ∉ ((m.channels.zip m.channels_settings).map
        (fun cp => cp.2.map (fun kv => cp.1 ++ "_" ++ kv.1))).flatten :=
    fun k hk hc => hdisj2 hc (List.mem_cons_of_mem _ (List.mem_cons_of_mem _
      (List.mem_cons_of_mem _ (List.mem_cons_of_mem _ (List.mem_cons_of_mem _ hk)))))
  have hchanMs : ("channels" : String)
      ∉ m.measurement_settings.map (fun kv => m.measurement ++ "_" ++ kv.1) :=
    fun hc => hdisj1 hc (by simp)
  have hsidMs : ("sample_id" : String)
      ∉ m.measurement_settings.map (fun kv => m.measurement ++ "_" ++ kv.1) :=
    fun hc => hdisj1 hc (by simp)
  have hdevMs : ("device" : String)
      ∉ m.measurement_settings.map (fun kv => m.measurement ++ "_" ++ kv.1) :=
    fun hc => hdisj1 hc (by simp)
  have hitfMs : ("interface" : String)
      ∉ m.measurement_settings.map (fun kv => m.measurement ++ "_" ++ kv.1) :=
    fun hc => hdisj1 hc (by simp)
  have hsdMs : ("sample_dimensions" : String)
      ∉ m.measurement_settings.map (fun kv => m.measurement ++ "_" ++ kv.1) :=
    fun hc => hdisj1 hc (by simp)
  have hpidMs : ("pixel_ids" : String)
      ∉ m.measurement_settings.map (fun kv => m.measurement ++ "_" ++ kv.1) :=
    fun hc => hdisj1 hc (by simp)
  have hppMs : ("pixel_positions" : String)
      ∉ m.measurement_settings.map (fun kv => m.measurement ++ "_" ++ kv.1) :=
    fun hc => hdisj1 hc (by simp)
  have hpdMs : ("pixel_dimensions" : String)
      ∉ m.measurement_settings.map (fun kv => m.measurement ++ "_" ++ kv.1) :=
    fun hc => hdisj1 hc (by simp)
  have hsidCh : ("sample_id" : String) ∉ ((m.channels.zip m.channels_settings).map
      (fun cp => cp.2.map (fun kv => cp.1 ++ "_" ++ kv.1))).flatten :=
    fun hc => hsidNot (List.mem_cons_of_mem _ (List.mem_cons_of_mem _
      (List.mem_append_left _ hc)))
  have hdevCh : ("device" : String) ∉ ((m.channels.zip m.channels_settings).map
      (fun cp => cp.2.map (fun kv => cp.1 ++ "_" ++ kv.1))).flatten :=
    fun hc => hdevNot (List.mem_cons_of_mem _ (List.mem_append_left _ hc))
  have hitfCh : ("interface" : String) ∉ ((m.channels.zip m.channels_settings).map
      (fun cp => cp.2.map (fun kv => cp.1 ++ "_" ++ kv.1))).flatten :=
    fun hc => hdisj2 hc (by simp)
  have hsdCh : ("sample_dimensions" : String) ∉ ((m.channels.zip m.channels_settings).map
      (fun cp => cp.2.map (fun kv => cp.1 ++ "_" ++ kv.1))).flatten :=
    fun hc => hdisj2 hc (by simp)
  have hpidCh : ("pixel_ids" : String) ∉ ((m.channels.zip m.channels_settings).map
      (fun cp => cp.2.map (fun kv => cp.1 ++ "_" ++ kv.1))).flatten :=
    fun hc => hdisj2 hc (by simp)
  have hppCh : ("pixel_positions" : String) ∉ ((m.channels.zip m.channels_settings).map
      (fun cp => cp.2.map (fun kv => cp.1 ++ "_" ++ kv.1))).flatten :=
    fun hc => hdisj2 hc (by simp)
  have hpdCh : ("pixel_dimensions" : String) ∉ ((m.channels.zip m.channels_settings).map
      (fun cp => cp.2.map (fun kv => cp.1 ++ "_" ++ kv.1))).flatten :=
    fun hc => hdisj2 hc (by simp)
  have hsidDc : ("sample_id" : String) ∉ m.dcmi.map (fun kv => "dcmi_" ++ kv.1) :=
    fun hc => hsidNot (List.mem_cons_of_mem _ (List.mem_cons_of_mem _
      (List.mem_append_right _ (List.mem_cons_of_mem _ (List.mem_cons_of_mem _
        (List.mem_cons_of_mem _ (List.mem_cons_of_mem _ (List.mem_cons_of_mem _ hc))))))))
  have hdevDc : ("device" : String) ∉ m.dcmi.map (fun kv => "dcmi_" ++ kv.1) :=
    fun hc => hdevNot (List.mem_cons_of_mem _ (List.mem_append_right _
      (List.mem_cons_of_mem _ (List.mem_cons_of_mem _ (List.mem_cons_of_mem _
        (List.mem_cons_of_mem _ (List.mem_cons_of_mem _ hc)))))))
  have hitfDc : ("interface" : String) ∉ m.dcmi.map (fun kv => "dcmi_" ++ kv.1) :=
    fun hc => hitfNot (List.mem_cons_of_mem _ (List.mem_cons_of_mem _
      (List.mem_cons_of_mem _ (List.mem_cons_of_mem _ hc))))
  have hsdDc : ("sample_dimensions" : String) ∉ m.dcmi.map (fun kv => "dcmi_" ++ kv.1) :=
    fun hc => hsdNot (List.mem_cons_of_mem _ (List.mem_cons_of_mem _
      (List.mem_cons_of_mem _ hc)))
  have hpidDc : ("pixel_ids" : String) ∉ m.dcmi.map (fun kv => "dcmi_" ++ kv.1) :=
    fun hc => hpidNot (List.mem_cons_of_mem _ (List.mem_cons_of_mem _ hc))
  have hppDc : ("pixel_positions" : String) ∉ m.dcmi.map (fun kv => "dcmi_" ++ kv.1) :=
    fun hc => hppNot (List.mem_cons_of_mem _ hc)
  have hpdDc : ("pixel_dimensions" : String) ∉ m.dcmi.map (fun kv => "dcmi_" ++ kv.1) :=
    fun hc => hpdNot hc
  -- memberships in the flat attribute list
  have hmem_meas : (("measurement", DBValue.s m.measurement) : String × DBValue)
      ∈ flatHead m := by
    unfold flatHead
    simp
  have hmem_sid : (("sample_id", DBValue.s m.sample_id) : String × DBValue)
      ∈ flatHead m := by
    unfold flatHead
    simp
  have hmem_dev : (("device", DBValue.s m.device) : String × DBValue) ∈ flatHead m := by
    unfold flatHead
    simp
  have hmem_chan : (("channels", DBValue.strs m.channels) : String × DBValue)
      ∈ flatHead m := by
    unfold flatHead
    simp
  have hmem_itf : (("interface", DBValue.s m.interface) : String × DBValue)
      ∈ flatHead m := by
    unfold flatHead
    simp
  have hmem_sdim : (("sample_dimensions", DBValue.s m.sample_dimensions) : String × DBValue)
      ∈ flatHead m := by
    unfold flatHead
    simp
  have hmem_pid : (("pixel_ids", DBValue.strs m.pixel_ids) : String × DBValue)
      ∈ flatHead m := by
    unfold flatHead
    simp
  have hmem_pp : (("pixel_positions", DBValue.pairs m.pixel_positions) : String × DBValue)
      ∈ flatHead m := by
    unfold flatHead
    simp
  have hmem_pd : (("pixel_dimensions", DBValue.strs m.pixel_dimensions) : String × DBValue)
      ∈ flatHead m := by
    unfold flatHead
    simp
  have hmem_ms : ∀ kv ∈ m.measurement_settings,
      ((m.measurement ++ "_" ++ kv.1 : String), kv.2) ∈ flatHead m := by
    intro kv hkv
    unfold flatHead
    refine List.mem_append_left _ (List.mem_append_left _ (List.mem_append_left _
      (List.mem_append_right _ ?_)))
    exact List.mem_map.mpr ⟨kv, hkv, rfl⟩
  have hmem_ch : ∀ cp ∈ m.channels.zip m.channels_settings, ∀ kv ∈ cp.2,
      ((cp.1 ++ "_" ++ kv.1 : String), kv.2) ∈ flatHead m := by
    intro cp hcp kv hkv
    unfold flatHead
    refine List.mem_append_left _ (List.mem_append_right _ ?_)
    exact List.mem_flatten.mpr ⟨cp.2.map (fun kv => (cp.1 ++ "_" ++ kv.1, kv.2)),
      List.mem_map.mpr ⟨cp, hcp, rfl⟩, List.mem_map.mpr ⟨kv, hkv, rfl⟩⟩
  have hlookup2 : ∀ (k : String) (v : DBValue), (k, v) ∈ flatAttrs m2 →
      alookup (flatAttrs m2) k = some v :=
    fun k v h => alookup_of_mem_nodup _ _ _ hndK2 h
  have hmemH : ∀ (k : String) (v : DBValue), (k, v) ∈ flatHead m →
      alookup (flatAttrs m2) k = some v := by
    intro k v hkv
    apply hlookup2
    rw [hfa2]
    exact List.mem_append_left _ hkv
  have hmem_dcL : ∀ kv ∈ m2.dcmi,
      alookup (flatAttrs m2) ("dcmi_" ++ kv.1) = some (DBValue.s (kv.2.getD "None")) := by
    intro kv hkv
    apply hlookup2
    rw [hfa2]
    exact List.mem_append_right _ (List.mem_map.mpr ⟨kv, hkv, rfl⟩)
  -- step 1: measurement lookup and settings extraction
  have hmeasb : (alookup (flatAttrs m2) "measurement").bind DBValue.asStr
      = some m.measurement := by
    rw [hmemH _ _ hmem_meas]
    rfl
  have hext1 : extractGroup (m.measurement ++ "_") ((flatAttrs m2).map Prod.fst)
      (flatAttrs m2)
      = some (m.measurement_settings,
          aeraseList (flatAttrs m2)
            (m.measurement_settings.map (fun kv => m.measurement ++ "_" ++ kv.1))) := by
    apply extractGroup_spec
    · rw [hKeq]
      exact hmsF
    · intro kv hkv
      exact hmemH _ _ (hmem_ms kv hkv)
    · exact hmsR
    · exact hmsNd
  have hchain1 : ∀ k : String,
      k ∉ m.measurement_settings.map (fun kv => m.measurement ++ "_" ++ kv.1) →
      alookup (aeraseList (flatAttrs m2)
        (m.measurement_settings.map (fun kv => m.measurement ++ "_" ++ kv.1))) k
      = alookup (flatAttrs m2) k :=
    fun k hk => alookup_aeraseList_ne _ _ _ (fun k' hk' hc => hk (hc ▸ hk'))
  -- step 2: channels lookup and per-channel extraction
  have hchanb : (alookup (aeraseList (flatAttrs m2)
      (m.measurement_settings.map (fun kv => m.measurement ++ "_" ++ kv.1))) "channels").bind
      DBValue.asStrList = some m.channels := by
    rw [hchain1 _ hchanMs, hmemH _ _ hmem_chan]
    rfl
  have hext2 : loadChannelsSettings ((flatAttrs m2).map Prod.fst) m.channels
      (aeraseList (flatAttrs m2)
        (m.measurement_settings.map (fun kv => m.measurement ++ "_" ++ kv.1)))
      = some (m.channels_settings,
          aeraseList (aeraseList (flatAttrs m2)
              (m.measurement_settings.map (fun kv => m.measurement ++ "_" ++ kv.1)))
            (((m.channels.zip m.channels_settings).map
              (fun cp => cp.2.map (fun kv => cp.1 ++ "_" ++ kv.1))).flatten)) := by
    unfold loadChannelsSettings
    have h := loadChannels_loop ((flatAttrs m2).map Prod.fst) m.channels m.channels_settings
      (aeraseList (flatAttrs m2)
        (m.measurement_settings.map (fun kv => m.measurement ++ "_" ++ kv.1)))
      [] hlen
      (fun cp hcp => by
        rw [hKeq]
        exact hchF cp hcp)
      (fun cp hcp kv hkv => by
        rw [hchain1 _ (hNotMs_ch _ (List.mem_flatten.mpr
          ⟨cp.2.map (fun kv => cp.1 ++ "_" ++ kv.1), List.mem_map.mpr ⟨cp, hcp, rfl⟩,
           List.mem_map.mpr ⟨kv, hkv, rfl⟩⟩))]
        exact hmemH _ _ (hmem_ch cp hcp kv hkv))
      (fun cp hcp kv hkv => hchR cp hcp kv hkv)
      hchNd
    simpa using h
  -- step 3: DCMI extraction
  have hkeysD : (m2.dcmi.map
      (fun kv : String × Option String => (kv.1, DBValue.s (kv.2.getD "None")))).map
      (fun kv => "dcmi_" ++ kv.1) = m.dcmi.map (fun kv => "dcmi_" ++ kv.1) := by
    rw [List.map_map]
    have hcomp : ((fun kv : String × DBValue => "dcmi_" ++ kv.1) ∘
        (fun kv : String × Option String => (kv.1, DBValue.s (kv.2.getD "None"))))
        = (fun kv : String × Option String => "dcmi_" ++ kv.1) := rfl
    rw [hcomp]
    exact hdcKeq
  have hext3 : extractGroup "dcmi_" ((flatAttrs m2).map Prod.fst)
      (aeraseList (aeraseList (flatAttrs m2)
          (m.measurement_settings.map (fun kv => m.measurement ++ "_" ++ kv.1)))
        (((m.channels.zip m.channels_settings).map
          (fun cp => cp.2.map (fun kv => cp.1 ++ "_" ++ kv.1))).flatten))
      = some (m2.dcmi.map
            (fun kv : String × Option String => (kv.1, DBValue.s (kv.2.getD "None"))),
          aeraseList (aeraseList (aeraseList (flatAttrs m2)
              (m.measurement_settings.map (fun kv => m.measurement ++ "_" ++ kv.1)))
            (((m.channels.zip m.channels_settings).map
              (fun cp => cp.2.map (fun kv => cp.1 ++ "_" ++ kv.1))).flatten))
            (m.dcmi.map (fun kv => "dcmi_" ++ kv.1))) := by
    have h := extractGroup_spec "dcmi_" ((flatAttrs m2).map Prod.fst)
      (m2.dcmi.map (fun kv : String × Option String => (kv.1, DBValue.s (kv.2.getD "None"))))
      (aeraseList (aeraseList (flatAttrs m2)
          (m.measurement_settings.map (fun kv => m.measurement ++ "_" ++ kv.1)))
        (((m.channels.zip m.channels_settings).map
          (fun cp => cp.2.map (fun kv => cp.1 ++ "_" ++ kv.1))).flatten))
      (by
        rw [hKeq, hkeysD]
        exact hdcF)
      (by
        intro bkv hb
        obtain ⟨kv, hkv, rfl⟩ := List.mem_map.mp hb
        show alookup _ ("dcmi_" ++ kv.1) = some (DBValue.s (kv.2.getD "None"))
        have hkdc : ("dcmi_" ++ kv.1 : String) ∈ m.dcmi.map (fun kv => "dcmi_" ++ kv.1) := by
          rw [← hdcKeq]
          exact List.mem_map.mpr ⟨kv, hkv, rfl⟩
        rw [alookup_aeraseList_ne _ _ _ (fun k' hk' hc => hNotCh_dc _ hkdc (by rw [← hc]; exact hk'))]
        rw [hchain1 _ (hNotMs_dc _ hkdc)]
        exact hmem_dcL kv hkv)
      (by
        intro bkv hb
        obtain ⟨kv, hkv, rfl⟩ := List.mem_map.mp hb
        show pyReplace "dcmi_" "" ("dcmi_" ++ kv.1) = kv.1
        exact hdcR _ (by
          rw [← hdk]
          exact List.mem_map_of_mem Prod.fst hkv))
      (by
        rw [hkeysD]
        exact hdcNd)
    rw [hkeysD] at h
    exact h
  -- step 4: the fixed named parameters
  have hmd3look : ∀ (k : String) (v : DBValue), (k, v) ∈ flatHead m →
      k ∉ m.measurement_settings.map (fun kv => m.measurement ++ "_" ++ kv.1) →
      k ∉ ((m.channels.zip m.channels_settings).map
        (fun cp => cp.2.map (fun kv => cp.1 ++ "_" ++ kv.1))).flatten →
      k ∉ m.dcmi.map (fun kv => "dcmi_" ++ kv.1) →
      alookup (aeraseList (aeraseList (aeraseList (flatAttrs m2)
          (m.measurement_settings.map (fun kv => m.measurement ++ "_" ++ kv.1)))
        (((m.channels.zip m.channels_settings).map
          (fun cp => cp.2.map (fun kv => cp.1 ++ "_" ++ kv.1))).flatten))
        (m.dcmi.map (fun kv => "dcmi_" ++ kv.1))) k = some v := by
    intro k v hmemk hk1 hk2 hk3
    rw [alookup_aeraseList_ne _ _ _ (fun k' hk' hc => hk3 (by rw [← hc]; exact hk'))]
    rw [alookup_aeraseList_ne _ _ _ (fun k' hk' hc => hk2 (by rw [← hc]; exact hk'))]
    rw [hchain1 _ hk1]
    exact hmemH _ _ hmemk
  have hld : loadFixed (aeraseList (aeraseList (aeraseList (flatAttrs m2)
          (m.measurement_settings.map (fun kv => m.measurement ++ "_" ++ kv.1)))
        (((m.channels.zip m.channels_settings).map
          (fun cp => cp.2.map (fun kv => cp.1 ++ "_" ++ kv.1))).flatten))
        (m.dcmi.map (fun kv => "dcmi_" ++ kv.1)))
      = some (m.sample_id, m.device, m.interface, m.sample_dimensions,
          m.pixel_ids, m.pixel_positions, m.pixel_dimensions) := by
    unfold loadFixed
    rw [hmd3look _ _ hmem_sid hsidMs hsidCh hsidDc,
        hmd3look _ _ hmem_dev hdevMs hdevCh hdevDc,
        hmd3look _ _ hmem_itf hitfMs hitfCh hitfDc,
        hmd3look _ _ hmem_sdim hsdMs hsdCh hsdDc,
        hmd3look _ _ hmem_pid hpidMs hpidCh hpidDc,
        hmd3look _ _ hmem_pp hppMs hppCh hppDc,
        hmd3look _ _ hmem_pd hpdMs hpdCh hpdDc]
    rfl
  -- step 5: no stray kwargs remain
  have hcomb : aeraseList (aeraseList (aeraseList (flatAttrs m2)
          (m.measurement_settings.map (fun kv => m.measurement ++ "_" ++ kv.1)))
        (((m.channels.zip m.channels_settings).map
          (fun cp => cp.2.map (fun kv => cp.1 ++ "_" ++ kv.1))).flatten))
        (m.dcmi.map (fun kv => "dcmi_" ++ kv.1))
      = aeraseList (flatAttrs m2)
          (((m.measurement_settings.map (fun kv => m.measurement ++ "_" ++ kv.1))
            ++ ((m.channels.zip m.channels_settings).map
              (fun cp => cp.2.map (fun kv => cp.1 ++ "_" ++ kv.1))).flatten)
            ++ m.dcmi.map (fun kv => "dcmi_" ++ kv.1)) := by
    rw [aeraseList_append, aeraseList_append]
  have hparam : ∀ kv ∈ aeraseList (aeraseList (aeraseList (flatAttrs m2)
          (m.measurement_settings.map (fun kv => m.measurement ++ "_" ++ kv.1)))
        (((m.channels.zip m.channels_settings).map
          (fun cp => cp.2.map (fun kv => cp.1 ++ "_" ++ kv.1))).flatten))
        (m.dcmi.map (fun kv => "dcmi_" ++ kv.1)),
      metadataParamNames.contains kv.1 = true := by
    intro kv hkv
    rw [hcomb] at hkv
    obtain ⟨hin, hnotin⟩ := mem_aeraseList _ _ _ hndK2 hkv
    simp only [List.mem_append, not_or] at hnotin
    obtain ⟨⟨hn1, hn2⟩, hn3⟩ := hnotin
    rw [hfa2] at hin
    rcases List.mem_append.mp hin with hH | hD
    · unfold flatHead at hH
      rcases List.mem_append.mp hH with hH4 | h5
      · rcases List.mem_append.mp hH4 with hH3 | h4
        · rcases List.mem_append.mp hH3 with hH2 | h3
          · rcases List.mem_append.mp hH2 with h1 | h2
            · simp only [List.mem_singleton] at h1
              subst h1
              rfl
            · exfalso
              apply hn1
              obtain ⟨kv0, hkv0, hkveq⟩ := List.mem_map.mp h2
              have hk1 : kv.1 = m.measurement ++ "_" ++ kv0.1 := by
                rw [← hkveq]
              rw [hk1]
              exact List.mem_map.mpr ⟨kv0, hkv0, rfl⟩
          · simp only [List.mem_cons, List.mem_singleton, List.not_mem_nil, or_false]
              at h3
            rcases h3 with h | h | h <;> subst h <;> rfl
        · exfalso
          apply hn2
          obtain ⟨inner, hinner, hkvin⟩ := List.mem_flatten.mp h4
          obtain ⟨cp, hcp, hinnereq⟩ := List.mem_map.mp hinner
          subst hinnereq
          obtain ⟨kv0, hkv0, hkveq⟩ := List.mem_map.mp hkvin
          have hk1 : kv.1 = cp.1 ++ "_" ++ kv0.1 := by
            rw [← hkveq]
          rw [hk1]
          exact List.mem_flatten.mpr ⟨cp.2.map (fun kv => cp.1 ++ "_" ++ kv.1),
            List.mem_map.mpr ⟨cp, hcp, rfl⟩, List.mem_map.mpr ⟨kv0, hkv0, rfl⟩⟩
      · simp only [List.mem_cons, List.mem_singleton, List.not_mem_nil, or_false] at h5
        rcases h5 with h | h | h | h | h <;> subst h <;> rfl
    · exfalso
      apply hn3
      obtain ⟨kv0, hkv0, hkveq⟩ := List.mem_map.mp hD
      have hk1 : kv.1 = "dcmi_" ++ kv0.1 := by
        rw [← hkveq]
      rw [hk1, ← hdcKeq]
      exact List.mem_map.mpr ⟨kv0, hkv0, rfl⟩
  have hleftnil : (aeraseList (aeraseList (aeraseList (flatAttrs m2)
          (m.measurement_settings.map (fun kv => m.measurement ++ "_" ++ kv.1)))
        (((m.channels.zip m.channels_settings).map
          (fun cp => cp.2.map (fun kv => cp.1 ++ "_" ++ kv.1))).flatten))
        (m.dcmi.map (fun kv => "dcmi_" ++ kv.1))).filter
        (fun kv => ¬ metadataParamNames.contains kv.1) = [] := by
    apply List.filter_eq_nil_iff.mpr
    intro kv hkv
    simpa using hparam kv hkv
  -- assemble the load_metadata computation
  refine ⟨Metadata.init hash cfg m.measurement m.measurement_settings m.sample_id m.device
    m.channels m.channels_settings m.interface m.sample_dimensions m.pixel_ids
    m.pixel_positions m.pixel_dimensions [], ?_,
    rfl, rfl, rfl, rfl, rfl, rfl, rfl, rfl, rfl, rfl, rfl, rfl⟩
  unfold load_metadata
  rw [hres]
  simp only [hmeasb, hext1, hchanb, hext2, hext3, hld, hleftnil, List.filterMap_nil]

/-- Counterexample to C4 as stated: a Metadata with a custom DCMI `description` does not round-trip; the loaded DCMI is the default mapping. -/
theorem c4_roundtrip_dcmi_counterexample :
    initialize_dataset emptyDB demoMetaD
      = some (demoInitD.1, demoInitD.2.1, demoInitD.2.2) ∧
    alookup demoMetaD.dcmi "description" = some (some "\"custom\"") ∧
    (load_metadata rawHash demoCfg demoInitD.2.1 demoInitD.1).map
      (fun lm => alookup lm.dcmi "description")
      = some (some (some "\"No description\"")) ∧
    (load_metadata rawHash demoCfg demoInitD.2.1 demoInitD.1).map Metadata.dcmi
      ≠ some demoMetaD.dcmi := by
  refine ⟨by decide, by decide, by decide, by decide⟩

/-- Witness for C4 (amended) at a concrete metadata on the empty store. -/
theorem c4_witness :
    initialize_dataset emptyDB demoMeta
      = some (demoInitResult.1, demoInitResult.2.1, demoInitResult.2.2) ∧
    (load_metadata rawHash demoCfg demoInitResult.2.1 demoInitResult.1).map
      Metadata.measurement = some "IV" := by
  obtain ⟨lm, hload, hmeas, _⟩ := c4_roundtrip_amended rawHash demoCfg emptyDB demoMeta
    (by decide) (by decide) (by decide) (by decide) (by decide) (by decide) (by decide)
    (by decide) (by decide) (by decide) (by decide) (by decide) (by decide)
    demoInitResult.1 demoInitResult.2.1 demoInitResult.2.2 (by decide)
  refine ⟨by decide, ?_⟩
  rw [hload]
  simp only [Option.map_some']
  rw [hmeas]
  rfl

/-- Witness for C2 at a concrete two-pixel experiment over a freshly initialized dataset. -/
theorem c2_witness :
    demoExpReady.state = ExperimentState.READY ∧
    demoExpReady.currentPixelIdx = -1 ∧
    (startAct demoExpReady).1 = none ∧
    (Exp.execute demoRun demoDB1
      { demoExpReady with state := ExperimentState.RUNNING }).1 = none ∧
    (Exp.execute demoRun demoDB1
      { demoExpReady with state := ExperimentState.RUNNING }).2.1.state
      = ExperimentState.FINISHED := by
  obtain ⟨e2, db2, hstart, hexec, hst, hidx2, hres2, _⟩ :=
    c2_execute_full_run demoRun demoDB1 demoExpReady
      "/IV/a1/00000000000000000000000001-S1" demoLeaf0 rfl rfl rfl (by decide) (by decide)
      (by decide)
  refine ⟨rfl, rfl, ?_, ?_, ?_⟩
  · rw [hstart]
  · rw [hexec]
  · rw [hexec]
    exact hst

/-- Witness for C10 at a concrete store holding two pixels. -/
theorem c10_witness :
    demoDB3.load_data "/IV/a1/00000000000000000000000001-S1" (Sum.inl "0")
      = some [[(0, 0)]] ∧
    demoDB3.load_data "/IV/a1/00000000000000000000000001-S1" (Sum.inr ["0", "1"])
      = some [[(0, 0)], [(1, 1)]] := by
  obtain ⟨h1, h2⟩ := c10_load_data demoDB3 "/IV/a1/00000000000000000000000001-S1" demoLeaf3
    "0" [(0, 0)] ["0", "1"] demoF (by decide) (by decide) (by decide)
  refine ⟨h1, ?_⟩
  rw [h2]
  rfl

end Cohesivm
